import Mathlib

/-!
# Verification of the DENSO b-CAP MCP server core (`cobotta_mcp/mcp_server.py`)

Shallow embedding of the stateful session manager and motion-execution
engine.  The black-box protocol client (`BCAPClient`) is modelled by an
oracle: a function from the position of a call in the operation's call
sequence to that call's outcome (a returned value, or a raised error
message).  Each tool handler is translated into a pure function from the
oracle, the current `ServerState` and the handler's arguments to the new
state, the ordered trace of protocol-client calls it issued, and its
outcome (a returned result object, or a propagated exception).

Numeric values are embedded as rationals; handles as naturals.  Python
truthiness of `Optional[int]` handles (`if not state.robot_handle`) is
modelled exactly: `None` and `0` are falsy.  `time.sleep` and `logger`
calls are side-effect free and omitted.
-/

namespace Cobotta

/-- A value returned by a protocol-client call: an opaque handle, a list of
numbers (variable values / poses), or nothing. -/
inductive PValue where
  | handle (h : ℕ)
  | vals (v : List ℚ)
  | unit
  deriving DecidableEq

/-- Outcome of one protocol-client call: a returned value or a raised
error carrying the exception message. -/
inductive CallResult where
  | ok (v : PValue)
  | err (msg : String)
  deriving DecidableEq

/-- Whether a call outcome is a success. -/
def CallResult.isOk : CallResult → Bool
  | .ok _ => true
  | .err _ => false

/-- The protocol client as a black box: the outcome of the n-th
client call issued during one top-level operation. -/
def Oracle : Type := ℕ → CallResult

/-- One protocol-client call, with the arguments the server passes.
`robotExecute` carries its command name and a numeric argument list
(`TakeArm` passes `[0, 0]`, `GiveArm` passes `None` modelled as `[]`,
`slvChangeMode` passes its mode code as a singleton, `slvMove` its
8-value point).  `robotMove` carries the target list, the interpolation
tag ("J" or "P") and the option string. -/
inductive PCall where
  | newClient (host : String) (port : ℕ)
  | robotRelease (h : ℕ)
  | controllerDisconnect (h : ℕ)
  | controllerConnect (name provider machine opt : String)
  | controllerGetRobot (h : ℕ) (name opt : String)
  | robotGetVariable (h : ℕ) (name opt : String)
  | variableGetValue (h : ℕ)
  | variableRelease (h : ℕ)
  | robotExecute (h : ℕ) (cmd : String) (arg : List ℚ)
  | robotMove (h : ℕ) (target : List ℚ) (interp : String) (opt : String)
  | robotSpeed (h : ℕ) (axis : ℤ) (speed : ℚ)
  | robotGoHome (h : ℕ)
  | controllerExecute (h : ℕ) (cmd : String) (arg : List ℚ)
  deriving DecidableEq

/-- `connection_info`: host, port, timeout; `None` models the cleared `{}`. -/
structure ConnInfo where
  host : String
  port : ℕ
  timeout : ℚ
  deriving DecidableEq

/-- An operation-log entry.  The source records timestamp, operation name,
params, result and error; timestamp/params/result are opaque to every
claim, so the embedding keeps the operation name and the error text. -/
structure LogEntry where
  operation : String
  error : Option String
  deriving DecidableEq

/-- `ServerState` from `mcp_server.py`: the three-tier connection handles,
connection metadata and the append-only operation log. -/
structure ServerState where
  client : Option ℕ
  controller_handle : Option ℕ
  robot_handle : Option ℕ
  connection_info : Option ConnInfo
  operation_log : List LogEntry
  deriving DecidableEq

/-- The state after the clearing lines of `ServerState.reset`
(`client = None; controller_handle = None; robot_handle = None;
connection_info = {}`). -/
def clearedState (s : ServerState) : ServerState :=
  { s with client := none, controller_handle := none, robot_handle := none,
           connection_info := none }

/-- Python truthiness of an `Optional[int]` handle: `None` and `0` are falsy. -/
def truthy : Option ℕ → Bool
  | none => false
  | some h => h != 0

/-- Extract a handle from a call's returned value (0 if not a handle). -/
def asHandle : PValue → ℕ
  | .handle h => h
  | _ => 0

/-- Extract a numeric list from a call's returned value. -/
def asVals : PValue → List ℚ
  | .vals v => v
  | _ => []

/-- Issue one protocol-client call: append it to the trace and look up its
outcome at its position in the call sequence. -/
def doCall (o : Oracle) (tr : List PCall) (c : PCall) : List PCall × CallResult :=
  (tr ++ [c], o tr.length)

/-- Outcome of a tool handler: a returned result object, or an exception
propagated to the dispatcher. -/
inductive Outcome (α : Type) where
  | ok (r : α)
  | raised (msg : String)
  deriving DecidableEq

/-- A handler run: final state, the ordered protocol-client call trace,
and the handler outcome. -/
structure Run (α : Type) where
  st : ServerState
  tr : List PCall
  out : Outcome α
  deriving DecidableEq

/-- Append one operation-log entry (`ServerState.log_operation`). -/
def logOp (s : ServerState) (op : String) (err : Option String) : ServerState :=
  { s with operation_log := s.operation_log ++ [⟨op, err⟩] }

/-- Embeds `ServerState.reset`.  `if self.client:` guards the release
calls; `if self.robot_handle:` / `if self.controller_handle:` use Python
truthiness.  The release calls are NOT wrapped in try/except: a raised
error propagates and the clearing lines do not run.  Returns (state,
trace, propagated error). -/
def resetRun (o : Oracle) (s : ServerState) : ServerState × List PCall × Option String :=
  match s.client with
  | none => (clearedState s, [], none)
  | some _ =>
    let rel : List PCall × Option String :=
      if truthy s.robot_handle then
        match doCall o [] (.robotRelease (s.robot_handle.getD 0)) with
        | (t, .ok _) => (t, none)
        | (t, .err m) => (t, some m)
      else ([], none)
    match rel with
    | (t, some m) => (s, t, some m)
    | (t, none) =>
      let dis : List PCall × Option String :=
        if truthy s.controller_handle then
          match doCall o t (.controllerDisconnect (s.controller_handle.getD 0)) with
          | (t2, .ok _) => (t2, none)
          | (t2, .err m) => (t2, some m)
        else (t, none)
      match dis with
      | (t2, some m) => (s, t2, some m)
      | (t2, none) => (clearedState s, t2, none)

/-- Embeds `handle_connect`.  `port`/`timeout` arrive already defaulted
(5007 / 3.0 in the dispatcher).  If a client exists, a full reset runs
first; then the `BCAPClient` constructor (a network-touching call) runs
un-guarded, so its failure propagates. -/
def handle_connect (o : Oracle) (s : ServerState) (host : String) (port : ℕ)
    (timeout : ℚ) : Run Unit :=
  let r1 : ServerState × List PCall × Option String :=
    if s.client.isSome then resetRun o s else (s, [], none)
  match r1 with
  | (s1, t1, some m) => ⟨s1, t1, .raised m⟩
  | (s1, t1, none) =>
    match doCall o t1 (.newClient host port) with
    | (t2, .err m) => ⟨s1, t2, .raised m⟩
    | (t2, .ok v) =>
      let s2 := { s1 with client := some (asHandle v),
                          connection_info := some ⟨host, port, timeout⟩ }
      ⟨logOp s2 "bcap_connect" none, t2, .ok ()⟩

/-- Result envelope of `handle_disconnect` (and other simple handlers). -/
structure SimpleResult where
  success : Bool
  error : Option String
  deriving DecidableEq

/-- Embeds `handle_disconnect`: on `state.client` `None` it returns the
failure envelope without logging, raising, or touching state; otherwise
it resets (a reset failure propagates) and logs once. -/
def handle_disconnect (o : Oracle) (s : ServerState) : Run SimpleResult :=
  match s.client with
  | none => ⟨s, [], .ok ⟨false, some "Not connected"⟩⟩
  | some _ =>
    match resetRun o s with
    | (s1, t, some m) => ⟨s1, t, .raised m⟩
    | (s1, t, none) => ⟨logOp s1 "bcap_disconnect" none, t, .ok ⟨true, none⟩⟩

/-- Result of `handle_get_connection_status`. -/
structure StatusResult where
  connected : Bool
  controller_connected : Bool
  robot_connected : Bool
  connection_info : Option ConnInfo
  deriving DecidableEq

/-- Embeds `handle_get_connection_status`: a pure read; issues no client
call, never raises, never logs. -/
def handle_get_connection_status (s : ServerState) : Run StatusResult :=
  ⟨s, [], .ok ⟨s.client.isSome, s.controller_handle.isSome, s.robot_handle.isSome,
               if s.client.isSome then s.connection_info else none⟩⟩

/-- Embeds `handle_controller_connect`: precondition `state.client` not
`None`, then one `controller_connect` call whose returned handle is
stored; logs once on success. -/
def handle_controller_connect (o : Oracle) (s : ServerState)
    (name provider machine opt : String) : Run Unit :=
  match s.client with
  | none => ⟨s, [], .raised "Please call bcap_connect first to establish connection"⟩
  | some _ =>
    match doCall o [] (.controllerConnect name provider machine opt) with
    | (t, .err m) => ⟨s, t, .raised m⟩
    | (t, .ok v) =>
      let s1 := { s with controller_handle := some (asHandle v) }
      ⟨logOp s1 "bcap_controller_connect" none, t, .ok ()⟩

/-- Embeds `handle_robot_connect`: precondition
`if not state.controller_handle` (Python truthiness), then
`state.client.controller_getrobot` — accessing a `None` client raises an
attribute error; the returned handle is stored; logs once on success. -/
def handle_robot_connect (o : Oracle) (s : ServerState) (name opt : String) : Run Unit :=
  if ¬ truthy s.controller_handle then
    ⟨s, [], .raised "Please call bcap_controller_connect first"⟩
  else
    match s.client with
    | none => ⟨s, [], .raised "AttributeError: NoneType has no attribute controller_getrobot"⟩
    | some _ =>
      match doCall o [] (.controllerGetRobot (s.controller_handle.getD 0) name opt) with
      | (t, .err m) => ⟨s, t, .raised m⟩
      | (t, .ok v) =>
        let s1 := { s with robot_handle := some (asHandle v) }
        ⟨logOp s1 "bcap_robot_connect" none, t, .ok ()⟩

/-- Parse a decimal literal (optional minus sign, digits, optional
fractional part) as Python `float` does on the strings the server feeds
it; `none` models a raised `ValueError`. -/
def pyFloat (s : String) : Option ℚ :=
  let core : String → Option ℚ := fun body =>
    let natOf : List Char → Option ℕ := fun cs =>
      if cs ≠ [] ∧ cs.all Char.isDigit then
        some (cs.foldl (fun a c => a * 10 + (c.toNat - 48)) 0)
      else none
    match body.splitOn "." with
    | [i] => (natOf i.data).map (fun n => (n : ℚ))
    | [i, f] =>
      match natOf i.data, natOf f.data with
      | some a, some b => some ((a : ℚ) + (b : ℚ) / (10 : ℚ) ^ f.length)
      | _, _ => none
    | _ => none
  if s.startsWith "-" then (core (s.drop 1)).map Neg.neg else core s

/-- The speed-parsing block of `handle_robot_move_to_joint_angles`:
`if option and "Speed=" in option:` then
`option.split("Speed=")[1].split()[0].split(",")[0]` fed to `float`,
with the whole attempt swallowed by `try/except: pass`.  (Python's
whitespace `split()` is modelled as splitting on a single space, which
agrees on the option strings the tool schema describes.) -/
def parseSpeedValue (opt : String) : Option ℚ :=
  if opt ≠ "" ∧ (opt.splitOn "Speed=").length ≥ 2 then
    let after := (opt.splitOn "Speed=").getD 1 ""
    let tok := (((after.splitOn " ").getD 0 "").splitOn ",").getD 0 ""
    pyFloat tok
  else none

/-- Embeds `handle_robot_move_to_joint_angles`.  It performs NO session
precondition check: it reads host/port/timeout from `connection_info`
with defaults ("192.168.0.1", 5007), constructs a fresh `BCAPClient`
(un-guarded — its failure propagates), and runs the whole
connect → getrobot → read-angles → TakeArm → [speed] → move → release
sequence inside one try whose except turns any failure into a returned
`{success: False, error}` envelope.  It never calls `log_operation`. -/
def handle_robot_move_to_joint_angles (o : Oracle) (s : ServerState)
    (joint_angles : List ℚ) (opt : String) : Run SimpleResult :=
  let host := (s.connection_info.map (·.host)).getD "192.168.0.1"
  let port := (s.connection_info.map (·.port)).getD 5007
  match doCall o [] (.newClient host port) with
  | (t, .err m) => ⟨s, t, .raised m⟩
  | (t, .ok _) =>
    -- try: ... except Exception as e: result = {success: False, error: str(e)}
    let fail : List PCall → String → Run SimpleResult :=
      fun t m => ⟨s, t, .ok ⟨false, some m⟩⟩
    match doCall o t (.controllerConnect "" "CaoProv.DENSO.VRC" "localhost" "") with
    | (t, .err m) => fail t m
    | (t, .ok ch) =>
      match doCall o t (.controllerGetRobot (asHandle ch) "Arm" "") with
      | (t, .err m) => fail t m
      | (t, .ok rh) =>
        match doCall o t (.robotGetVariable (asHandle rh) "@CURRENT_ANGLE" "") with
        | (t, .err m) => fail t m
        | (t, .ok vh) =>
          match doCall o t (.variableGetValue (asHandle vh)) with
          | (t, .err m) => fail t m
          | (t, .ok _) =>
            match doCall o t (.variableRelease (asHandle vh)) with
            | (t, .err m) => fail t m
            | (t, .ok _) =>
              match doCall o t (.robotExecute (asHandle rh) "TakeArm" [0, 0]) with
              | (t, .err m) => fail t m
              | (t, .ok _) =>
                -- if speed_value is not None: try robot_speed, warn on failure
                let t :=
                  match parseSpeedValue opt with
                  | none => t
                  | some sv => (doCall o t (.robotSpeed (asHandle rh) 0 sv)).1
                match doCall o t (.robotMove (asHandle rh) joint_angles "J" opt) with
                | (t, .err m) => fail t m
                | (t, .ok _) =>
                  match doCall o t (.robotRelease (asHandle rh)) with
                  | (t, .err m) => fail t m
                  | (t, .ok _) =>
                    match doCall o t (.controllerDisconnect (asHandle ch)) with
                    | (t, .err m) => fail t m
                    | (t, .ok _) => ⟨s, t, .ok ⟨true, none⟩⟩

/-- Embeds `handle_robot_move_to_pose`: precondition
`if not state.robot_handle` (truthiness) before anything else, then the
6-component pose validation, then read current position, `TakeArm`, and
the Cartesian move; each un-guarded call's failure propagates; logs once
on success. -/
def handle_robot_move_to_pose (o : Oracle) (s : ServerState)
    (pose : List ℚ) (opt : String) : Run SimpleResult :=
  if ¬ truthy s.robot_handle then
    ⟨s, [], .raised "Please call bcap_robot_connect first"⟩
  else if pose.length ≠ 6 then
    ⟨s, [], .raised
      "Position and orientation must be 6 values [x(mm), y(mm), z(mm), rx(deg), ry(deg), rz(deg)]"⟩
  else
    let rh := s.robot_handle.getD 0
    match s.client with
    | none => ⟨s, [], .raised "AttributeError: NoneType has no attribute robot_getvariable"⟩
    | some _ =>
      match doCall o [] (.robotGetVariable rh "@CURRENT_POSITION" "") with
      | (t, .err m) => ⟨s, t, .raised m⟩
      | (t, .ok vh) =>
        match doCall o t (.variableGetValue (asHandle vh)) with
        | (t, .err m) => ⟨s, t, .raised m⟩
        | (t, .ok _) =>
          match doCall o t (.variableRelease (asHandle vh)) with
          | (t, .err m) => ⟨s, t, .raised m⟩
          | (t, .ok _) =>
            match doCall o t (.robotExecute rh "TakeArm" [0, 0]) with
            | (t, .err m) => ⟨s, t, .raised m⟩
            | (t, .ok _) =>
              match doCall o t (.robotMove rh pose "P" opt) with
              | (t, .err m) => ⟨s, t, .raised m⟩
              | (t, .ok _) => ⟨logOp s "bcap_robot_move_to_pose" none, t, .ok ⟨true, none⟩⟩

/-- Index (0-based) of the first trajectory point whose length is not 6,
mirroring the validation loop of the trajectory executors. -/
def firstBadPoint : List (List ℚ) → ℕ → Option ℕ
  | [], _ => none
  | p :: ps, i => if p.length ≠ 6 then some i else firstBadPoint ps (i + 1)

/-- The validation error message for trajectory point `i` (0-based). -/
def badPointMsg (i : ℕ) : String :=
  "Trajectory point " ++ toString (i + 1) ++ " must have 6 joint angle values"

/-- Per-point record of the trajectory executors: `error = none` models a
`status: "success"` entry of `executed_details`, `error = some m` an
entry of `failed_details`. -/
structure PointDetail where
  index : ℕ
  angles : List ℚ
  error : Option String
  deriving DecidableEq

/-- The initial-angles capture shared by both trajectory executors:
`try: var_handle = robot_getvariable(..); initial = variable_getvalue(..);
variable_release(..) except: pass`.  A failure of `variable_release`
happens after `initial_angles` was assigned, so the value survives it. -/
def captureInitialAngles (o : Oracle) (rh : ℕ) :
    List PCall × Option (List ℚ) :=
  match doCall o [] (.robotGetVariable rh "@CURRENT_ANGLE" "") with
  | (t, .err _) => (t, none)
  | (t, .ok vh) =>
    match doCall o t (.variableGetValue (asHandle vh)) with
    | (t, .err _) => (t, none)
    | (t, .ok v) =>
      match doCall o t (.variableRelease (asHandle vh)) with
      | (t, _) => (t, some (asVals v))

/-- The per-point loop of `handle_robot_execute_trajectory`: issue each
move; on success append to `executed_details`, on failure append to
`failed_details` and continue with the next point.  `i` is the 0-based
position of the head of `ps` in the trajectory. -/
def trajLoop (o : Oracle) (rh : ℕ) (mopt : String) :
    List (List ℚ) → ℕ → List PCall → List PointDetail → List PointDetail →
    List PCall × List PointDetail × List PointDetail
  | [], _, tr, ex, fl => (tr, ex, fl)
  | p :: ps, i, tr, ex, fl =>
    match doCall o tr (.robotMove rh p "J" mopt) with
    | (t, .ok _) => trajLoop o rh mopt ps (i + 1) t (ex ++ [⟨i + 1, p, none⟩]) fl
    | (t, .err m) => trajLoop o rh mopt ps (i + 1) t ex (fl ++ [⟨i + 1, p, some m⟩])

/-- Result of `handle_robot_execute_trajectory`. -/
structure TrajResult where
  success : Bool
  total_points : ℕ
  executed_points : ℕ
  failed_points : ℕ
  initial_angles : Option (List ℚ)
  executed_details : List PointDetail
  failed_details : List PointDetail
  deriving DecidableEq

/-- Embeds `handle_robot_execute_trajectory`: robot-connect precondition
(truthiness), 6-component validation of every point before any client
call, best-effort initial-angles capture, best-effort `GiveArm`, one
un-guarded `TakeArm` (failure propagates), then the continue-on-failure
point loop; logs once when it returns a result. -/
def handle_robot_execute_trajectory (o : Oracle) (s : ServerState)
    (trajectory : List (List ℚ)) (opt : String) : Run TrajResult :=
  if ¬ truthy s.robot_handle then
    ⟨s, [], .raised "Please call bcap_robot_connect first"⟩
  else
    match firstBadPoint trajectory 0 with
    | some i => ⟨s, [], .raised (badPointMsg i)⟩
    | none =>
      let rh := s.robot_handle.getD 0
      let (t1, initial) := captureInitialAngles o rh
      -- try: GiveArm except: pass
      let t2 := (doCall o t1 (.robotExecute rh "GiveArm" [])).1
      match doCall o t2 (.robotExecute rh "TakeArm" [0, 0]) with
      | (t3, .err m) => ⟨s, t3, .raised m⟩
      | (t3, .ok _) =>
        let (t4, ex, fl) := trajLoop o rh opt trajectory 0 t3 [] []
        let r : TrajResult :=
          ⟨fl.isEmpty, trajectory.length, ex.length, fl.length, initial, ex, fl⟩
        ⟨logOp s "bcap_robot_execute_trajectory" none, t4, .ok r⟩

/-- Result of `handle_robot_execute_slave_trajectory`.  The exception
branch builds a result without detail lists (`details = none`) and with
an `error` field; the normal branch carries both detail lists. -/
structure SlaveResult where
  success : Bool
  total_points : ℕ
  executed_points : ℕ
  failed_points : ℕ
  initial_angles : Option (List ℚ)
  executed_details : Option (List PointDetail)
  failed_details : Option (List PointDetail)
  error : Option String
  deriving DecidableEq

/-- The streaming loop of the slave executor over `trajectory[1:]`:
`slvMove` with the point padded to 8 values; per-point failures are
recorded and the stream continues.  `i` is the 0-based position of the
head of `ps` in the trajectory. -/
def slaveLoop (o : Oracle) (rh : ℕ) :
    List (List ℚ) → ℕ → List PCall → List PointDetail → List PointDetail →
    List PCall × List PointDetail × List PointDetail
  | [], _, tr, ex, fl => (tr, ex, fl)
  | p :: ps, i, tr, ex, fl =>
    match doCall o tr (.robotExecute rh "slvMove" (p ++ [0, 0])) with
    | (t, .ok _) => slaveLoop o rh ps (i + 1) t (ex ++ [⟨i + 1, p, none⟩]) fl
    | (t, .err m) => slaveLoop o rh ps (i + 1) t ex (fl ++ [⟨i + 1, p, some m⟩])

/-- The best-effort cleanup of the slave executor's exception handler:
`try: slvChangeMode(0x000); GiveArm except: pass`.  Both calls live in
ONE try, so if the mode-exit call raises, `GiveArm` is never issued. -/
def slaveCleanup (o : Oracle) (rh : ℕ) (tr : List PCall) : List PCall :=
  match doCall o tr (.robotExecute rh "slvChangeMode" [0]) with
  | (t, .ok _) => (doCall o t (.robotExecute rh "GiveArm" [])).1
  | (t, .err _) => t

/-- The exception branch of the slave executor: run the best-effort
cleanup, build the failure result, log once, return. -/
def slaveFail (o : Oracle) (s : ServerState) (rh : ℕ) (total : ℕ)
    (initial : Option (List ℚ)) (ex fl : List PointDetail) (m : String)
    (tr : List PCall) : Run SlaveResult :=
  let t := slaveCleanup o rh tr
  let r : SlaveResult := ⟨false, total, ex.length, fl.length, initial, none, none, some m⟩
  ⟨logOp s "bcap_robot_execute_slave_trajectory" none, t, .ok r⟩

/-- Embeds `handle_robot_execute_slave_trajectory`: robot-connect
precondition, 6-component validation, best-effort initial-angles capture
(only the first 6 values kept), then inside one try: `TakeArm`, enter
slave mode (`slvChangeMode 0x202` = 514), the first point as an
initialization `slvMove` whose failure is recorded and then re-raised
(fatal), the streaming loop over the remaining points, exit slave mode
(`slvChangeMode 0x000`), `GiveArm`.  Any exception in that try lands in
`slaveFail`.  Logs once whenever it returns a result. -/
def handle_robot_execute_slave_trajectory (o : Oracle) (s : ServerState)
    (trajectory : List (List ℚ)) (_opt : String) : Run SlaveResult :=
  if ¬ truthy s.robot_handle then
    ⟨s, [], .raised "Please call bcap_robot_connect first"⟩
  else
    match firstBadPoint trajectory 0 with
    | some i => ⟨s, [], .raised (badPointMsg i)⟩
    | none =>
      let rh := s.robot_handle.getD 0
      let (t1, initial0) := captureInitialAngles o rh
      let initial := initial0.map (·.take 6)
      let total := trajectory.length
      match doCall o t1 (.robotExecute rh "TakeArm" [0, 0]) with
      | (t, .err m) => slaveFail o s rh total initial [] [] m t
      | (t, .ok _) =>
        match doCall o t (.robotExecute rh "slvChangeMode" [514]) with
        | (t, .err m) => slaveFail o s rh total initial [] [] m t
        | (t, .ok _) =>
          match trajectory with
          | [] =>
            -- len(trajectory) > 0 is False: skip the first point and the loop
            match doCall o t (.robotExecute rh "slvChangeMode" [0]) with
            | (t, .err m) => slaveFail o s rh total initial [] [] m t
            | (t, .ok _) =>
              match doCall o t (.robotExecute rh "GiveArm" []) with
              | (t, .err m) => slaveFail o s rh total initial [] [] m t
              | (t, .ok _) =>
                let r : SlaveResult :=
                  ⟨true, total, 0, 0, initial, some [], some [], none⟩
                ⟨logOp s "bcap_robot_execute_slave_trajectory" none, t, .ok r⟩
          | p0 :: rest =>
            match doCall o t (.robotExecute rh "slvMove" (p0 ++ [0, 0])) with
            | (t, .err m) =>
              -- recorded in failed_points, then re-raised: fatal
              slaveFail o s rh total initial [] [⟨1, p0, some m⟩] m t
            | (t, .ok _) =>
              let ex0 : List PointDetail := [⟨1, p0, none⟩]
              let (t, ex, fl) := slaveLoop o rh rest 1 t ex0 []
              match doCall o t (.robotExecute rh "slvChangeMode" [0]) with
              | (t, .err m) => slaveFail o s rh total initial ex fl m t
              | (t, .ok _) =>
                match doCall o t (.robotExecute rh "GiveArm" []) with
                | (t, .err m) => slaveFail o s rh total initial ex fl m t
                | (t, .ok _) =>
                  let r : SlaveResult :=
                    ⟨fl.isEmpty, total, ex.length, fl.length, initial, some ex, some fl, none⟩
                  ⟨logOp s "bcap_robot_execute_slave_trajectory" none, t, .ok r⟩

/-- The argument lists of the `slvMove` calls of a trace, in order. -/
def slvMoves : List PCall → List (List ℚ)
  | [] => []
  | .robotExecute _ cmd a :: rest =>
    if cmd = "slvMove" then a :: slvMoves rest else slvMoves rest
  | _ :: rest => slvMoves rest

/-- Count of `slvMove` calls in a trace. -/
def slvMoveCount (tr : List PCall) : ℕ := (slvMoves tr).length

/-- Count of `GiveArm` calls in a trace. -/
def giveArmCount : List PCall → ℕ
  | [] => 0
  | .robotExecute _ cmd _ :: rest =>
    (if cmd = "GiveArm" then 1 else 0) + giveArmCount rest
  | _ :: rest => giveArmCount rest

/-- The targets of the `robot_move` calls of a trace, in order. -/
def moveCalls : List PCall → List (List ℚ)
  | [] => []
  | .robotMove _ tgt _ _ :: rest => tgt :: moveCalls rest
  | _ :: rest => moveCalls rest

/-- Per-step record of the pick-and-place saga (step index, action name,
status "success"/"failed", error text on failure; the result-metadata
fields such as positions and gripper distances are not modelled — the
commanded targets live in the call trace). -/
structure Step where
  step : ℕ
  action : String
  status : String
  error : Option String
  deriving DecidableEq

/-- A gripper step of the saga (steps 1, 3 and 9): one `HandMoveA`
controller call inside its own try; a failure is appended to the error
list and to the step list with status "failed", and execution continues. -/
def pnpGripperStep (o : Oracle) (ch : ℕ) (tr : List PCall) (n : ℕ)
    (action : String) (d gspeed : ℚ) (steps : List Step) (errors : List String) :
    List PCall × List Step × List String :=
  match doCall o tr (.controllerExecute ch "HandMoveA" [d, gspeed]) with
  | (t, .ok _) => (t, steps ++ [⟨n, action, "success", none⟩], errors)
  | (t, .err m) =>
    let em := "Step " ++ toString n ++ " failed (may be simulator limitation): " ++ m
    (t, steps ++ [⟨n, action, "failed", some em⟩], errors ++ [em])

/-- A move step of the saga (steps 2, 7, 10 and each lift sub-step):
`TakeArm` then `robot_move` inside one try; a failure of either call is
recorded and execution continues.  The returned boolean says whether
`TakeArm` succeeded — the Python locals assigned between the two calls
(`pick_z`, `place_y`, the `current_z` increment) are bound exactly when
it did, even if the move itself then fails. -/
def pnpMoveStep (o : Oracle) (rh : ℕ) (tr : List PCall) (n : ℕ)
    (action : String) (target : List ℚ) (steps : List Step) (errors : List String) :
    List PCall × List Step × List String × Bool :=
  match doCall o tr (.robotExecute rh "TakeArm" [0, 0]) with
  | (t, .err m) =>
    let em := "Step " ++ toString n ++ " failed: " ++ m
    (t, steps ++ [⟨n, action, "failed", some em⟩], errors ++ [em], false)
  | (t, .ok _) =>
    match doCall o t (.robotMove rh target "P" "") with
    | (t2, .ok _) => (t2, steps ++ [⟨n, action, "success", none⟩], errors, true)
    | (t2, .err m) =>
      let em := "Step " ++ toString n ++ " failed: " ++ m
      (t2, steps ++ [⟨n, action, "failed", some em⟩], errors ++ [em], true)

/-- One lift sub-step (steps 4-6), over the running `current_z`:
`TakeArm`, then `current_z += step_up_mm`, then the move.  When `TakeArm`
fails the increment line is never reached, so `current_z` is unchanged
for that iteration. -/
def pnpLiftStep (o : Oracle) (rh : ℕ) (x y rx ry rz step_up : ℚ) (i : ℕ)
    (acc : ℚ × List PCall × List Step × List String) :
    ℚ × List PCall × List Step × List String :=
  let (cz, tr, steps, errors) := acc
  match doCall o tr (.robotExecute rh "TakeArm" [0, 0]) with
  | (t, .err m) =>
    let em := "Step " ++ toString (4 + i) ++ " failed: " ++ m
    (cz, t, steps ++ [⟨4 + i, "lift_up_" ++ toString (i + 1), "failed", some em⟩],
     errors ++ [em])
  | (t, .ok _) =>
    let cz1 := cz + step_up
    match doCall o t (.robotMove rh [x, y, cz1, rx, ry, rz] "P" "") with
    | (t2, .ok _) =>
      (cz1, t2, steps ++ [⟨4 + i, "lift_up_" ++ toString (i + 1), "success", none⟩], errors)
    | (t2, .err m) =>
      let em := "Step " ++ toString (4 + i) ++ " failed: " ++ m
      (cz1, t2, steps ++ [⟨4 + i, "lift_up_" ++ toString (i + 1), "failed", some em⟩],
       errors ++ [em])

/-- Result of `handle_robot_pick_and_place`.  The outer-exception branch
has no position fields and carries `error`; the normal branch carries
the captured initial/final positions (`[:6]`). -/
structure PnPResult where
  success : Bool
  initial_position : Option (List ℚ)
  final_position : Option (List ℚ)
  steps : List Step
  errors : List String
  error : Option String
  deriving DecidableEq

/-- The outer `except Exception` branch of the saga: failure envelope
with the steps and errors accumulated so far; the handler still logs
once. -/
def pnpAbort (s : ServerState) (tr : List PCall) (m : String)
    (steps : List Step) (errors : List String) : Run PnPResult :=
  ⟨logOp s "bcap_robot_pick_and_place" none, tr,
   .ok ⟨false, none, none, steps, errors, some m⟩⟩

/-- Embeds `handle_robot_pick_and_place`.  Preconditions: controller
then robot handle (truthiness).  Distances arrive in centimeters and are
multiplied by 10.  Step 0 (initial-pose capture) is un-guarded inside
the outer try: its failure, a pose of fewer than 6 values, and the
un-guarded final-pose capture all land in the outer except.  Each
numbered step 1-10 has its own try.  `pick_z` is bound only if step 2's
`TakeArm` succeeded; the un-guarded `current_z = pick_z` line between
step 3 and the lift loop raises a `NameError` (modelled with the message
spelled without quote characters) to the outer except when it is
unbound.  `place_y` is bound only if step 7's `TakeArm` succeeded; step
8 references it inside its own try, so that `NameError` is recorded as a
step-8 failure.  Logs once on every path that builds a result. -/
def handle_robot_pick_and_place (o : Oracle) (s : ServerState)
    (pick_down_distance lift_up_distance place_y_offset place_down_distance : ℚ)
    (gripper_speed : ℚ) : Run PnPResult :=
  if ¬ truthy s.controller_handle then
    ⟨s, [], .raised "Please call bcap_controller_connect first"⟩
  else if ¬ truthy s.robot_handle then
    ⟨s, [], .raised "Please call bcap_robot_connect first"⟩
  else
    match s.client with
    | none => pnpAbort s [] "AttributeError: NoneType has no attribute robot_getvariable" [] []
    | some _ =>
    let ch := s.controller_handle.getD 0
    let rh := s.robot_handle.getD 0
    let pick_down_mm := pick_down_distance * 10
    let lift_up_mm := lift_up_distance * 10
    let place_y_mm := place_y_offset * 10
    let place_down_mm := place_down_distance * 10
    -- Step 0: initial-pose capture (un-guarded; failure aborts the saga)
    match doCall o [] (.robotGetVariable rh "@CURRENT_POSITION" "") with
    | (t, .err m) => pnpAbort s t m [] []
    | (t, .ok vh) =>
      match doCall o t (.variableGetValue (asHandle vh)) with
      | (t, .err m) => pnpAbort s t m [] []
      | (t, .ok pv) =>
        match doCall o t (.variableRelease (asHandle vh)) with
        | (t, .err m) => pnpAbort s t m [] []
        | (t, .ok _) =>
          let initial_pose := asVals pv
          if initial_pose.length < 6 then
            pnpAbort s t "IndexError: list index out of range" [] []
          else
            let x := initial_pose.getD 0 0
            let y := initial_pose.getD 1 0
            let z := initial_pose.getD 2 0
            let rx := initial_pose.getD 3 0
            let ry := initial_pose.getD 4 0
            let rz := initial_pose.getD 5 0
            let steps : List Step := [⟨0, "get_initial_position", "success", none⟩]
            -- Step 1: open gripper
            let (t, steps, errors) := pnpGripperStep o ch t 1 "open_gripper" 30 gripper_speed steps []
            -- Step 2: move down to pick
            let (t, steps, errors, s2arm) :=
              pnpMoveStep o rh t 2 "move_down_to_pick"
                [x, y, z - pick_down_mm, rx, ry, rz] steps errors
            let pick_z : Option ℚ := if s2arm then some (z - pick_down_mm) else none
            -- Step 3: close gripper
            let (t, steps, errors) := pnpGripperStep o ch t 3 "close_gripper" 21 gripper_speed steps errors
            let step_up_mm := lift_up_mm / 3
            -- current_z = pick_z : NameError when pick_z is unbound
            match pick_z with
            | none => pnpAbort s t "NameError: name pick_z is not defined" steps errors
            | some pz =>
              -- Steps 4-6: lift loop
              let a := pnpLiftStep o rh x y rx ry rz step_up_mm 0 (pz, t, steps, errors)
              let a := pnpLiftStep o rh x y rx ry rz step_up_mm 1 a
              let (cz, t, steps, errors) := pnpLiftStep o rh x y rx ry rz step_up_mm 2 a
              -- Step 7: move along Y
              let (t, steps, errors, s7arm) :=
                pnpMoveStep o rh t 7 "move_y_to_place"
                  [x, y + place_y_mm, cz, rx, ry, rz] steps errors
              let place_y : Option ℚ := if s7arm then some (y + place_y_mm) else none
              -- Step 8: move down to place (references place_y inside its try)
              let (t, steps, errors) :=
                match doCall o t (.robotExecute rh "TakeArm" [0, 0]) with
                | (t, .err m) =>
                  let em := "Step 8 failed: " ++ m
                  (t, steps ++ [⟨8, "move_down_to_place", "failed", some em⟩], errors ++ [em])
                | (t, .ok _) =>
                  match place_y with
                  | none =>
                    let em := "Step 8 failed: NameError: name place_y is not defined"
                    (t, steps ++ [⟨8, "move_down_to_place", "failed", some em⟩], errors ++ [em])
                  | some py =>
                    match doCall o t (.robotMove rh [x, py, cz - place_down_mm, rx, ry, rz] "P" "") with
                    | (t, .ok _) =>
                      (t, steps ++ [⟨8, "move_down_to_place", "success", none⟩], errors)
                    | (t, .err m) =>
                      let em := "Step 8 failed: " ++ m
                      (t, steps ++ [⟨8, "move_down_to_place", "failed", some em⟩], errors ++ [em])
              -- Step 9: open gripper
              let (t, steps, errors) := pnpGripperStep o ch t 9 "open_gripper" 30 gripper_speed steps errors
              -- Step 10: return to initial position
              let (t, steps, errors, _) :=
                pnpMoveStep o rh t 10 "return_to_initial_position"
                  [x, y, z, rx, ry, rz] steps errors
              -- Final-pose capture (un-guarded; failure aborts)
              match doCall o t (.robotGetVariable rh "@CURRENT_POSITION" "") with
              | (t, .err m) => pnpAbort s t m steps errors
              | (t, .ok vh2) =>
                match doCall o t (.variableGetValue (asHandle vh2)) with
                | (t, .err m) => pnpAbort s t m steps errors
                | (t, .ok fv) =>
                  match doCall o t (.variableRelease (asHandle vh2)) with
                  | (t, .err m) => pnpAbort s t m steps errors
                  | (t, .ok _) =>
                    let r : PnPResult :=
                      ⟨errors.isEmpty, some (initial_pose.take 6), some ((asVals fv).take 6),
                       steps, errors, none⟩
                    ⟨logOp s "bcap_robot_pick_and_place" none, t, .ok r⟩

/-- Python list slicing `l[start:]` for an integer `start`: a negative
start counts from the end (clamped at 0), a non-negative start drops
that many elements (clamped at the length). -/
def pySliceFrom (l : List LogEntry) (start : ℤ) : List LogEntry :=
  if start < 0 then l.drop ((l.length + start).toNat)
  else l.drop start.toNat

/-- Result of `handle_get_operation_log`. -/
structure GetLogResult where
  success : Bool
  total_operations : ℕ
  returned_count : ℕ
  logs : List LogEntry
  deriving DecidableEq

/-- Embeds `handle_get_operation_log`: `limit = args.get("limit", 50)`,
`logs = state.operation_log[-limit:]`; issues no client call, never
raises, never mutates state, never logs. -/
def handle_get_operation_log (s : ServerState) (limit : Option ℤ) : Run GetLogResult :=
  let lim := limit.getD 50
  let logs := pySliceFrom s.operation_log (-lim)
  ⟨s, [], .ok ⟨true, s.operation_log.length, logs.length, logs⟩⟩

/-- The exception arms of the `call_tool` dispatcher: a handler outcome
that raised is logged once (with the classified error text) and turned
into a failure envelope; a returned result passes through with no extra
log entry.  Returns the state visible after the top-level invocation. -/
def dispatchLog {α : Type} (run : Run α) (opName : String) : ServerState :=
  match run.out with
  | .ok _ => run.st
  | .raised m => logOp run.st opName (some ("Error: " ++ m))

/-- The prefix-chain invariant on the session state: a non-null robot
handle requires a non-null controller handle, which requires a non-null
client. -/
def Inv (s : ServerState) : Prop :=
  (s.robot_handle.isSome → s.controller_handle.isSome) ∧
  (s.controller_handle.isSome → s.client.isSome)

instance (s : ServerState) : Decidable (Inv s) := by
  unfold Inv; infer_instance

/-! ## Helper lemmas -/

theorem truthy_isSome {x : Option ℕ} (h : truthy x = true) : x.isSome := by
  cases x with
  | none => simp [truthy] at h
  | some v => rfl

theorem inv_clearedState (s : ServerState) : Inv (clearedState s) := by
  simp [Inv, clearedState]

/-- `reset` ends in exactly one of two states: untouched (a release call
raised) or fully cleared. -/
theorem reset_state_cases (o : Oracle) (s : ServerState) :
    (resetRun o s).1 = s ∨ (resetRun o s).1 = clearedState s := by
  rcases hc : s.client with _ | c
  · simp [resetRun, hc]
  · by_cases hr : truthy s.robot_handle
    · rcases h0 : o 0 with v | m
      · by_cases hk : truthy s.controller_handle
        · rcases h1 : o 1 with w | m2 <;>
            simp [resetRun, hc, hr, hk, doCall, h0, h1]
        · simp [resetRun, hc, hr, hk, doCall, h0]
      · simp [resetRun, hc, hr, doCall, h0]
    · by_cases hk : truthy s.controller_handle
      · rcases h0 : o 0 with v | m <;>
          simp [resetRun, hc, hr, hk, doCall, h0]
      · simp [resetRun, hc, hr, hk, clearedState]

/-- When `reset` does not raise, the local state is cleared. -/
theorem reset_ok_cleared (o : Oracle) (s : ServerState)
    (h : (resetRun o s).2.2 = none) : (resetRun o s).1 = clearedState s := by
  rcases hc : s.client with _ | c
  · simp [resetRun, hc]
  · by_cases hr : truthy s.robot_handle
    · rcases h0 : o 0 with v | m
      · by_cases hk : truthy s.controller_handle
        · rcases h1 : o 1 with w | m2
          · simp [resetRun, hc, hr, hk, doCall, h0, h1]
          · simp [resetRun, hc, hr, hk, doCall, h0, h1] at h
        · simp [resetRun, hc, hr, hk, doCall, h0]
      · simp [resetRun, hc, hr, doCall, h0] at h
    · by_cases hk : truthy s.controller_handle
      · rcases h0 : o 0 with v | m
        · simp [resetRun, hc, hr, hk, doCall, h0]
        · simp [resetRun, hc, hr, hk, doCall, h0] at h
      · simp [resetRun, hc, hr, hk, clearedState]

/-- When `reset` raises, the local state is left entirely unchanged. -/
theorem reset_err_unchanged (o : Oracle) (s : ServerState) (m : String)
    (h : (resetRun o s).2.2 = some m) : (resetRun o s).1 = s := by
  rcases hc : s.client with _ | c
  · simp [resetRun, hc] at h
  · by_cases hr : truthy s.robot_handle
    · rcases h0 : o 0 with v | m0
      · by_cases hk : truthy s.controller_handle
        · rcases h1 : o 1 with w | m1
          · simp [resetRun, hc, hr, hk, doCall, h0, h1] at h
          · simp [resetRun, hc, hr, hk, doCall, h0, h1]
        · simp [resetRun, hc, hr, hk, doCall, h0] at h
      · simp [resetRun, hc, hr, doCall, h0]
    · by_cases hk : truthy s.controller_handle
      · rcases h0 : o 0 with v | m0
        · simp [resetRun, hc, hr, hk, doCall, h0] at h
        · simp [resetRun, hc, hr, hk, doCall, h0]
      · simp [resetRun, hc, hr, hk] at h

theorem inv_reset (o : Oracle) (s : ServerState) (h : Inv s) :
    Inv (resetRun o s).1 := by
  rcases reset_state_cases o s with hc | hc <;> rw [hc]
  · exact h
  · exact inv_clearedState s

/-- Reset on a session with no client performs no protocol-client call
and never raises. -/
theorem reset_no_client (o : Oracle) (s : ServerState) (h : s.client = none) :
    resetRun o s = (clearedState s, [], none) := by
  simp [resetRun, h]

/-- The calls emitted by `reset`, in order: possibly one robot release,
then possibly one controller disconnect — the robot handle is always
released before the controller handle. -/
theorem reset_trace_cases (o : Oracle) (s : ServerState) :
    (resetRun o s).2.1 = [] ∨
    (∃ h, (resetRun o s).2.1 = [.robotRelease h]) ∨
    (∃ h, (resetRun o s).2.1 = [.controllerDisconnect h]) ∨
    (∃ h h2, (resetRun o s).2.1 = [.robotRelease h, .controllerDisconnect h2]) := by
  rcases hc : s.client with _ | c
  · simp [resetRun, hc]
  · by_cases hr : truthy s.robot_handle
    · rcases h0 : o 0 with v | m
      · by_cases hk : truthy s.controller_handle
        · rcases h1 : o 1 with w | m2 <;>
            simp [resetRun, hc, hr, hk, doCall, h0, h1]
        · simp [resetRun, hc, hr, hk, doCall, h0]
      · simp [resetRun, hc, hr, doCall, h0]
    · by_cases hk : truthy s.controller_handle
      · rcases h0 : o 0 with v | m <;>
          simp [resetRun, hc, hr, hk, doCall, h0]
      · simp [resetRun, hc, hr, hk]

theorem inv_logOp {s : ServerState} (h : Inv s) (op : String) (e : Option String) :
    Inv (logOp s op e) := h

theorem inv_handle_connect (o : Oracle) (s : ServerState) (host : String)
    (port : ℕ) (timeout : ℚ) (h : Inv s) :
    Inv (handle_connect o s host port timeout).st := by
  unfold handle_connect
  rcases hc : s.client with _ | c
  · rcases h0 : o 0 with v | m
    · simp only [hc, Option.isSome_none, Bool.false_eq_true, if_false, doCall,
        List.length_nil, List.nil_append, h0]
      exact ⟨h.1, fun _ => rfl⟩
    · simp only [hc, Option.isSome_none, Bool.false_eq_true, if_false, doCall,
        List.length_nil, List.nil_append, h0]
      exact h
  · rcases hres : resetRun o s with ⟨s1, t1, e1⟩
    have hs1 : s1 = s ∨ s1 = clearedState s := by
      have h2 := reset_state_cases o s; rw [hres] at h2; exact h2
    have hinv1 : Inv s1 := by
      rcases hs1 with rfl | rfl
      · exact h
      · exact inv_clearedState s
    rcases e1 with _ | m
    · rcases h2 : o t1.length with v | m2
      · simp only [hc, Option.isSome_some, if_true, hres, doCall, h2]
        exact ⟨hinv1.1, fun _ => rfl⟩
      · simp only [hc, Option.isSome_some, if_true, hres, doCall, h2]
        exact hinv1
    · simp only [hc, Option.isSome_some, if_true, hres]
      exact hinv1

theorem inv_handle_controller_connect (o : Oracle) (s : ServerState)
    (name provider machine opt : String) (h : Inv s) :
    Inv (handle_controller_connect o s name provider machine opt).st := by
  unfold handle_controller_connect
  rcases hc : s.client with _ | c
  · simp only [hc]; exact h
  · rcases h0 : o 0 with v | m
    · simp only [hc, doCall, List.length_nil, List.nil_append, h0]
      exact ⟨fun _ => rfl, fun _ => by simp [logOp, hc]⟩
    · simp only [hc, doCall, List.length_nil, List.nil_append, h0]
      exact h

theorem inv_handle_robot_connect (o : Oracle) (s : ServerState)
    (name opt : String) (h : Inv s) :
    Inv (handle_robot_connect o s name opt).st := by
  unfold handle_robot_connect
  by_cases hk : truthy s.controller_handle
  · rw [if_neg (not_not_intro hk)]
    rcases hc : s.client with _ | c
    · simp only [hc]
      exact h
    · rcases h0 : o 0 with v | m
      · simp only [hc, doCall, List.length_nil, List.nil_append, h0]
        exact ⟨fun _ => truthy_isSome hk, fun _ => by simp [logOp, hc]⟩
      · simp only [hc, doCall, List.length_nil, List.nil_append, h0]
        exact h
  · rw [if_pos hk]
    exact h

theorem inv_handle_disconnect (o : Oracle) (s : ServerState) (h : Inv s) :
    Inv (handle_disconnect o s).st := by
  unfold handle_disconnect
  rcases hc : s.client with _ | c
  · simp only [hc]; exact h
  · rcases hres : resetRun o s with ⟨s1, t1, e1⟩
    have hs1 : s1 = s ∨ s1 = clearedState s := by
      have h2 := reset_state_cases o s; rw [hres] at h2; exact h2
    have hinv1 : Inv s1 := by
      rcases hs1 with rfl | rfl
      · exact h
      · exact inv_clearedState s
    rcases e1 with _ | m
    · simp only [hc, hres]
      exact hinv1
    · simp only [hc, hres]
      exact hinv1

/-- The robot-connect precondition branch: with a falsy controller handle
it raises the precondition error, issues no call, and leaves state
unchanged. -/
theorem robot_connect_precondition (o : Oracle) (s : ServerState) (name opt : String)
    (h : ¬ truthy s.controller_handle) :
    handle_robot_connect o s name opt =
      ⟨s, [], .raised "Please call bcap_controller_connect first"⟩ := by
  simp [handle_robot_connect, h]

theorem firstBadPoint_none : ∀ (ps : List (List ℚ)) (i : ℕ),
    firstBadPoint ps i = none → ∀ p ∈ ps, p.length = 6
  | [], _, _, p, hp => absurd hp (List.not_mem_nil p)
  | q :: ps, i, h, p, hp => by
    by_cases hq : q.length ≠ 6
    · simp [firstBadPoint, hq] at h
    · push_neg at hq
      rcases List.mem_cons.1 hp with rfl | hmem
      · exact hq
      · refine firstBadPoint_none ps (i + 1) ?_ p hmem
        simpa [firstBadPoint, hq] using h

theorem firstBadPoint_some_of_bad {traj : List (List ℚ)}
    (h : ∃ p ∈ traj, p.length ≠ 6) : ∃ i, firstBadPoint traj 0 = some i := by
  rcases hfb : firstBadPoint traj 0 with _ | i
  · exact absurd (firstBadPoint_none traj 0 hfb _ h.choose_spec.1) h.choose_spec.2
  · exact ⟨i, rfl⟩

theorem moveCalls_append : ∀ a b : List PCall,
    moveCalls (a ++ b) = moveCalls a ++ moveCalls b
  | [], _ => rfl
  | x :: a, b => by cases x <;> simp [moveCalls, moveCalls_append a b]

/-- The initial-angles capture issues no `robot_move` call. -/
theorem moveCalls_capture (o : Oracle) (rh : ℕ) :
    moveCalls (captureInitialAngles o rh).1 = [] := by
  unfold captureInitialAngles
  rcases h0 : o 0 with v | m
  · rcases h1 : o 1 with w | m
    · simp [doCall, h0, h1, moveCalls]
    · simp [doCall, h0, h1, moveCalls]
  · simp [doCall, h0, moveCalls]

/-- The discrete point loop appends exactly one `robot_move` per point,
in trajectory order, whatever the oracle decides. -/
theorem trajLoop_trace (o : Oracle) (rh : ℕ) (mopt : String) :
    ∀ (ps : List (List ℚ)) (i : ℕ) (tr : List PCall) (ex fl : List PointDetail),
    (trajLoop o rh mopt ps i tr ex fl).1 =
      tr ++ ps.map (fun p => .robotMove rh p "J" mopt)
  | [], _, tr, ex, fl => by simp [trajLoop]
  | p :: ps, i, tr, ex, fl => by
    rcases h : o tr.length with v | m <;>
      simp [trajLoop, doCall, h, trajLoop_trace o rh mopt ps (i + 1)]

/-- Every point of the discrete loop lands in exactly one of the two
detail lists. -/
theorem trajLoop_counts (o : Oracle) (rh : ℕ) (mopt : String) :
    ∀ (ps : List (List ℚ)) (i : ℕ) (tr : List PCall) (ex fl : List PointDetail),
    (trajLoop o rh mopt ps i tr ex fl).2.1.length +
      (trajLoop o rh mopt ps i tr ex fl).2.2.length =
      ex.length + fl.length + ps.length
  | [], _, tr, ex, fl => by simp [trajLoop]
  | p :: ps, i, tr, ex, fl => by
    rcases h : o tr.length with v | m
    · have ih := trajLoop_counts o rh mopt ps (i + 1)
        (tr ++ [.robotMove rh p "J" mopt]) (ex ++ [⟨i + 1, p, none⟩]) fl
      simp only [trajLoop, doCall, h]
      simp only [List.length_append, List.length_cons, List.length_nil] at ih ⊢
      omega
    · have ih := trajLoop_counts o rh mopt ps (i + 1)
        (tr ++ [.robotMove rh p "J" mopt]) ex (fl ++ [⟨i + 1, p, some m⟩])
      simp only [trajLoop, doCall, h]
      simp only [List.length_append, List.length_cons, List.length_nil] at ih ⊢
      omega

theorem moveCalls_map_robotMove (rh : ℕ) (opt : String) :
    ∀ traj : List (List ℚ),
    moveCalls (traj.map (fun p => PCall.robotMove rh p "J" opt)) = traj
  | [] => rfl
  | q :: qs => by simp [moveCalls, moveCalls_map_robotMove rh opt qs]

/-- Part (a) of the discrete-trajectory claim: a point of the wrong arity
makes the handler raise before any protocol-client call. -/
theorem traj_validation (o : Oracle) (s : ServerState) (traj : List (List ℚ))
    (opt : String) (hrb : truthy s.robot_handle)
    (h : ∃ p ∈ traj, p.length ≠ 6) :
    ∃ m, handle_robot_execute_trajectory o s traj opt = ⟨s, [], .raised m⟩ := by
  rcases firstBadPoint_some_of_bad h with ⟨i, hi⟩
  refine ⟨badPointMsg i, ?_⟩
  unfold handle_robot_execute_trajectory
  rw [if_neg (not_not_intro hrb), hi]

/-- Part (b) of the discrete-trajectory claim: whenever the handler
returns a result, its trace contains exactly one move per trajectory
point in order, the counts add up, and success is emptiness of the
failure list. -/
theorem traj_ok_spec (o : Oracle) (s : ServerState) (traj : List (List ℚ))
    (opt : String) (r : TrajResult)
    (h : (handle_robot_execute_trajectory o s traj opt).out = .ok r) :
    moveCalls (handle_robot_execute_trajectory o s traj opt).tr = traj ∧
    r.total_points = traj.length ∧
    r.executed_points + r.failed_points = traj.length ∧
    r.executed_points = r.executed_details.length ∧
    r.failed_points = r.failed_details.length ∧
    (r.success = true ↔ r.failed_details = []) := by
  by_cases hrb : truthy s.robot_handle
  · rcases hbad : firstBadPoint traj 0 with _ | i
    · rcases hcap : captureInitialAngles o (s.robot_handle.getD 0) with ⟨t1, initial⟩
      have hmt1 : moveCalls t1 = [] := by
        have h2 := moveCalls_capture o (s.robot_handle.getD 0)
        rw [hcap] at h2; exact h2
      rcases htake : o (t1.length + 1) with v | m
      · rcases hloop : trajLoop o (s.robot_handle.getD 0) opt traj 0
            (t1 ++ [PCall.robotExecute (s.robot_handle.getD 0) "GiveArm" [],
                    PCall.robotExecute (s.robot_handle.getD 0) "TakeArm" [0, 0]])
            [] [] with ⟨t4, ex, fl⟩
        have htr : t4 = (t1 ++ [PCall.robotExecute (s.robot_handle.getD 0) "GiveArm" [],
                    PCall.robotExecute (s.robot_handle.getD 0) "TakeArm" [0, 0]]) ++
            traj.map (fun p => .robotMove (s.robot_handle.getD 0) p "J" opt) := by
          have h2 := trajLoop_trace o (s.robot_handle.getD 0) opt traj 0
            (t1 ++ [PCall.robotExecute (s.robot_handle.getD 0) "GiveArm" [],
                    PCall.robotExecute (s.robot_handle.getD 0) "TakeArm" [0, 0]]) [] []
          rw [hloop] at h2; exact h2
        have hcnt : ex.length + fl.length = traj.length := by
          have h2 := trajLoop_counts o (s.robot_handle.getD 0) opt traj 0
            (t1 ++ [PCall.robotExecute (s.robot_handle.getD 0) "GiveArm" [],
                    PCall.robotExecute (s.robot_handle.getD 0) "TakeArm" [0, 0]]) [] []
          rw [hloop] at h2; simpa using h2
        have hmv : moveCalls (traj.map
            (fun p => PCall.robotMove (s.robot_handle.getD 0) p "J" opt)) = traj :=
          moveCalls_map_robotMove (s.robot_handle.getD 0) opt traj
        simp only [handle_robot_execute_trajectory, if_neg (not_not_intro hrb), hbad,
          hcap, doCall, List.length_append, List.length_cons, List.length_nil,
          List.append_assoc, List.singleton_append, Nat.zero_add, Nat.add_zero,
          htake, hloop] at h ⊢
        simp only [Outcome.ok.injEq] at h
        subst h
        refine ⟨?_, rfl, by simpa using hcnt, rfl, rfl, by simp [List.isEmpty_iff]⟩
        rw [htr]
        simp [moveCalls_append, moveCalls, hmt1, hmv]
      · exfalso
        simp only [handle_robot_execute_trajectory, if_neg (not_not_intro hrb), hbad,
          hcap, doCall, List.length_append, List.length_cons, List.length_nil,
          List.append_assoc, List.singleton_append, Nat.zero_add, Nat.add_zero,
          htake] at h
        exact Outcome.noConfusion h
    · exfalso
      simp only [handle_robot_execute_trajectory, if_neg (not_not_intro hrb), hbad] at h
      exact Outcome.noConfusion h
  · exfalso
    simp only [handle_robot_execute_trajectory, if_pos hrb] at h
    exact Outcome.noConfusion h

/-- An oracle on which every protocol-client call succeeds, returning a
fixed pose/angle list. -/
def oracleOk : Oracle := fun _ => .ok (.vals [100, 200, 300, 10, 20, 30])

/-- An oracle on which every protocol-client call fails. -/
def oracleErr : Oracle := fun _ => .err "boom"

/-- A fully connected session state. -/
def sFull : ServerState :=
  ⟨some 1, some 2, some 3, some ⟨"10.0.0.5", 5007, 3⟩, [⟨"bcap_connect", none⟩]⟩

/-- A fresh, never-connected session state. -/
def sFresh : ServerState := ⟨none, none, none, none, []⟩

/-! ## C1 -/

/-- C1: the session state maintains the prefix-chain invariant
(robot handle non-null implies controller handle non-null implies client
non-null): every reachable-state-mutating operation — connect,
controller-connect, robot-connect, disconnect, and reset itself —
preserves `Inv`; robot-connect on a falsy controller handle fails with
the precondition error without issuing any protocol call; and reset
emits at most one robot release followed by at most one controller
disconnect, so the robot handle is always released before the controller
handle. -/
theorem C1_prefix_chain_invariant :
    (∀ (o : Oracle) (s : ServerState) (host : String) (port : ℕ) (timeout : ℚ),
      Inv s → Inv (handle_connect o s host port timeout).st) ∧
    (∀ (o : Oracle) (s : ServerState) (name provider machine opt : String),
      Inv s → Inv (handle_controller_connect o s name provider machine opt).st) ∧
    (∀ (o : Oracle) (s : ServerState) (name opt : String),
      Inv s → Inv (handle_robot_connect o s name opt).st) ∧
    (∀ (o : Oracle) (s : ServerState), Inv s → Inv (handle_disconnect o s).st) ∧
    (∀ (o : Oracle) (s : ServerState), Inv s → Inv (resetRun o s).1) ∧
    (∀ (o : Oracle) (s : ServerState) (name opt : String),
      ¬ truthy s.controller_handle →
      handle_robot_connect o s name opt =
        ⟨s, [], .raised "Please call bcap_controller_connect first"⟩) ∧
    (∀ (o : Oracle) (s : ServerState),
      (resetRun o s).2.1 = [] ∨
      (∃ h, (resetRun o s).2.1 = [.robotRelease h]) ∨
      (∃ h, (resetRun o s).2.1 = [.controllerDisconnect h]) ∨
      (∃ h h2, (resetRun o s).2.1 = [.robotRelease h, .controllerDisconnect h2])) :=
  ⟨inv_handle_connect, inv_handle_controller_connect, inv_handle_robot_connect,
   inv_handle_disconnect, inv_reset, robot_connect_precondition, reset_trace_cases⟩

/-- C1 witness: the invariant holds of the concrete fully connected state
and is preserved by a concrete connect on it. -/
theorem C1_prefix_chain_invariant_witness :
    Inv (handle_connect oracleOk sFull "10.0.0.9" 5007 3).st :=
  C1_prefix_chain_invariant.1 oracleOk sFull "10.0.0.9" 5007 3 (by decide)

/-! ## C2 -/

/-- C2: discrete trajectory execution.  (a) If some point does not have
exactly 6 components the handler raises before issuing any
protocol-client call and leaves state untouched.  (b) Whenever the
handler returns a result, its trace contains exactly one `robot_move`
per trajectory point, in trajectory order (every point is attempted,
failures included), executed plus failed counts equal the total (which
is the trajectory length), the counts agree with the detail lists, and
`success` is true iff the failed list is empty. -/
theorem C2_discrete_trajectory :
    (∀ (o : Oracle) (s : ServerState) (traj : List (List ℚ)) (opt : String),
      truthy s.robot_handle →
      (∃ p ∈ traj, p.length ≠ 6) →
      ∃ m, handle_robot_execute_trajectory o s traj opt = ⟨s, [], .raised m⟩) ∧
    (∀ (o : Oracle) (s : ServerState) (traj : List (List ℚ)) (opt : String)
      (r : TrajResult),
      (handle_robot_execute_trajectory o s traj opt).out = .ok r →
      moveCalls (handle_robot_execute_trajectory o s traj opt).tr = traj ∧
      r.total_points = traj.length ∧
      r.executed_points + r.failed_points = traj.length ∧
      r.executed_points = r.executed_details.length ∧
      r.failed_points = r.failed_details.length ∧
      (r.success = true ↔ r.failed_details = [])) :=
  ⟨traj_validation, traj_ok_spec⟩

/-- C2 witness: a 5-component point is rejected with no call issued, and
a concrete well-formed trajectory is driven point by point. -/
theorem C2_discrete_trajectory_witness :
    (∃ m, handle_robot_execute_trajectory oracleOk sFull [[1, 2, 3, 4, 5]] "" =
        ⟨sFull, [], .raised m⟩) ∧
    moveCalls (handle_robot_execute_trajectory oracleOk sFull
        [[0, 0, 0, 0, 0, 0], [10, 20, 30, 0, 0, 0]] "").tr =
      [[0, 0, 0, 0, 0, 0], [10, 20, 30, 0, 0, 0]] :=
  ⟨C2_discrete_trajectory.1 oracleOk sFull [[1, 2, 3, 4, 5]] "" (by decide)
      ⟨[1, 2, 3, 4, 5], by decide, by decide⟩,
   (C2_discrete_trajectory.2 oracleOk sFull
      [[0, 0, 0, 0, 0, 0], [10, 20, 30, 0, 0, 0]] ""
      ⟨true, 2, 2, 0, some [100, 200, 300, 10, 20, 30],
       [⟨1, [0, 0, 0, 0, 0, 0], none⟩, ⟨2, [10, 20, 30, 0, 0, 0], none⟩], []⟩
      (by decide)).1⟩

/-! ## C3 support -/

theorem firstBadPoint_none_of_all : ∀ (ps : List (List ℚ)) (i : ℕ),
    (∀ p ∈ ps, p.length = 6) → firstBadPoint ps i = none
  | [], _, _ => rfl
  | q :: ps, i, h => by
    have hq : q.length = 6 := h q (List.mem_cons_self q ps)
    simp only [firstBadPoint, hq]
    simpa using firstBadPoint_none_of_all ps (i + 1)
      (fun p hp => h p (List.mem_cons_of_mem q hp))

theorem slvMoves_append : ∀ a b : List PCall,
    slvMoves (a ++ b) = slvMoves a ++ slvMoves b
  | [], _ => rfl
  | x :: a, b => by
    cases x with
    | robotExecute h cmd arg =>
      by_cases hc : cmd = "slvMove" <;>
        simp [slvMoves, hc, slvMoves_append a b]
    | _ => simp [slvMoves, slvMoves_append a b]

/-- The initial-angles capture issues no `slvMove` call. -/
theorem slvMoves_capture (o : Oracle) (rh : ℕ) :
    slvMoves (captureInitialAngles o rh).1 = [] := by
  unfold captureInitialAngles
  rcases h0 : o 0 with v | m
  · rcases h1 : o 1 with w | m
    · simp [doCall, h0, h1, slvMoves]
    · simp [doCall, h0, h1, slvMoves]
  · simp [doCall, h0, slvMoves]

/-- The slave streaming loop issues exactly one `slvMove` per remaining
point, in order, whatever the oracle decides. -/
theorem slaveLoop_trace (o : Oracle) (rh : ℕ) :
    ∀ (ps : List (List ℚ)) (i : ℕ) (tr : List PCall) (ex fl : List PointDetail),
    (slaveLoop o rh ps i tr ex fl).1 =
      tr ++ ps.map (fun p => .robotExecute rh "slvMove" (p ++ [0, 0]))
  | [], _, tr, ex, fl => by simp [slaveLoop]
  | p :: ps, i, tr, ex, fl => by
    rcases h : o tr.length with v | m <;>
      simp [slaveLoop, doCall, h, slaveLoop_trace o rh ps (i + 1)]

/-- Every streamed point of the slave loop lands in exactly one of the
two detail lists. -/
theorem slaveLoop_counts (o : Oracle) (rh : ℕ) :
    ∀ (ps : List (List ℚ)) (i : ℕ) (tr : List PCall) (ex fl : List PointDetail),
    (slaveLoop o rh ps i tr ex fl).2.1.length +
      (slaveLoop o rh ps i tr ex fl).2.2.length =
      ex.length + fl.length + ps.length
  | [], _, tr, ex, fl => by simp [slaveLoop]
  | p :: ps, i, tr, ex, fl => by
    rcases h : o tr.length with v | m
    · have ih := slaveLoop_counts o rh ps (i + 1)
        (tr ++ [.robotExecute rh "slvMove" (p ++ [0, 0])]) (ex ++ [⟨i + 1, p, none⟩]) fl
      simp only [slaveLoop, doCall, h]
      simp only [List.length_append, List.length_cons, List.length_nil] at ih ⊢
      omega
    · have ih := slaveLoop_counts o rh ps (i + 1)
        (tr ++ [.robotExecute rh "slvMove" (p ++ [0, 0])]) ex (fl ++ [⟨i + 1, p, some m⟩])
      simp only [slaveLoop, doCall, h]
      simp only [List.length_append, List.length_cons, List.length_nil] at ih ⊢
      omega

theorem slvMoves_map (rh : ℕ) : ∀ ps : List (List ℚ),
    slvMoves (ps.map (fun p => PCall.robotExecute rh "slvMove" (p ++ [0, 0]))) =
      ps.map (fun p => p ++ [0, 0])
  | [] => rfl
  | q :: qs => by simp [slvMoves, slvMoves_map rh qs]

/-- The best-effort cleanup always attempts the slave-mode exit; it
attempts the arm release exactly when the exit call succeeded. -/
theorem slaveCleanup_spec (o : Oracle) (rh : ℕ) (tr : List PCall) :
    (slaveCleanup o rh tr = tr ++ [.robotExecute rh "slvChangeMode" [0]] ∧
      (o tr.length).isOk = false) ∨
    (slaveCleanup o rh tr =
      tr ++ [.robotExecute rh "slvChangeMode" [0], .robotExecute rh "GiveArm" []] ∧
      (o tr.length).isOk = true) := by
  unfold slaveCleanup doCall
  rcases h : o tr.length with v | m
  · right
    simp [h, CallResult.isOk]
  · left
    simp [h, CallResult.isOk]

theorem isOk_exists {c : CallResult} (h : c.isOk = true) : ∃ v, c = .ok v := by
  cases c with
  | ok v => exact ⟨v, rfl⟩
  | err m => simp [CallResult.isOk] at h

/-- Part (i) of the slave-trajectory claim: when the initial-angles
capture and the TakeArm / slave-mode-enter calls succeed and the first
streamed point fails, the handler returns a failure result recording one
failed and zero executed points, and only one `slvMove` was ever
issued — no further point is attempted. -/
theorem slave_first_point_fatal (o : Oracle) (s : ServerState)
    (p0 : List ℚ) (rest : List (List ℚ)) (opt : String) (m : String)
    (hrb : truthy s.robot_handle)
    (hlen : ∀ p ∈ p0 :: rest, p.length = 6)
    (h0 : (o 0).isOk = true) (h1 : (o 1).isOk = true)
    (h3 : (o 3).isOk = true) (h4 : (o 4).isOk = true)
    (h5 : o 5 = .err m) :
    ∃ r, (handle_robot_execute_slave_trajectory o s (p0 :: rest) opt).out = .ok r ∧
      r.success = false ∧ r.error = some m ∧
      r.executed_points = 0 ∧ r.failed_points = 1 ∧
      slvMoveCount (handle_robot_execute_slave_trajectory o s (p0 :: rest) opt).tr = 1 := by
  obtain ⟨v0, hv0⟩ := isOk_exists h0
  obtain ⟨v1, hv1⟩ := isOk_exists h1
  obtain ⟨v3, hv3⟩ := isOk_exists h3
  obtain ⟨v4, hv4⟩ := isOk_exists h4
  have hfb := firstBadPoint_none_of_all (p0 :: rest) 0 hlen
  rcases h6 : o 6 with v6 | m6 <;>
  · refine ⟨⟨false, (p0 :: rest).length, 0, 1,
      some ((asVals v1).take 6), none, none, some m⟩, ?_, rfl, rfl, rfl, rfl, ?_⟩ <;>
    simp [handle_robot_execute_slave_trajectory, hrb, hfb,
      captureInitialAngles, doCall, hv0, hv1, hv3, hv4, h5, h6, slaveFail,
      slaveCleanup, slvMoveCount, slvMoves]

/-- Part (ii) of the slave-trajectory claim: whenever the handler returns
a result that is not an exception-branch result, every trajectory point
was streamed exactly once in order (later failures do not abort the
stream), the counts add up to the trajectory length, and success is
equivalent to zero failed points. -/
theorem slave_normal_spec (o : Oracle) (s : ServerState) (traj : List (List ℚ))
    (opt : String) (r : SlaveResult)
    (h : (handle_robot_execute_slave_trajectory o s traj opt).out = .ok r)
    (herr : r.error = none) :
    slvMoves (handle_robot_execute_slave_trajectory o s traj opt).tr =
      traj.map (fun p => p ++ [0, 0]) ∧
    r.total_points = traj.length ∧
    r.executed_points + r.failed_points = traj.length ∧
    (r.success = true ↔ r.failed_points = 0) := by
  by_cases hrb : truthy s.robot_handle
  · rcases hbad : firstBadPoint traj 0 with _ | i
    · rcases hcap : captureInitialAngles o (s.robot_handle.getD 0) with ⟨t1, init0⟩
      have hsm1 : slvMoves t1 = [] := by
        have h2 := slvMoves_capture o (s.robot_handle.getD 0)
        rw [hcap] at h2; exact h2
      rcases h3 : o t1.length with v3 | m3
      · rcases h4 : o (t1.length + 1) with v4 | m4
        · rcases traj with _ | ⟨p0, rest⟩
          · rcases h5 : o (t1.length + 2) with v5 | m5
            · rcases h6 : o (t1.length + 3) with v6 | m6
              · simp only [handle_robot_execute_slave_trajectory, hrb,
                  eq_self_iff_true, not_true, if_false, hbad, hcap, doCall,
                  List.length_append, List.length_cons, List.length_nil,
                  List.append_assoc, List.cons_append, List.nil_append,
                  Nat.zero_add, Nat.add_zero, h3, h4, h5, h6,
                  Outcome.ok.injEq] at h ⊢
                subst h
                refine ⟨?_, rfl, rfl, by simp⟩
                simp [slvMoves_append, hsm1, slvMoves]
              · simp [handle_robot_execute_slave_trajectory, hrb, hbad, hcap,
                  doCall, h3, h4, h5, h6, slaveFail, Outcome.ok.injEq] at h
                subst h
                simp at herr
            · simp [handle_robot_execute_slave_trajectory, hrb, hbad, hcap,
                doCall, h3, h4, h5, slaveFail, Outcome.ok.injEq] at h
              subst h
              simp at herr
          · rcases h5 : o (t1.length + 2) with v5 | m5
            · rcases hloop : slaveLoop o (s.robot_handle.getD 0) rest 1
                  (t1 ++ [.robotExecute (s.robot_handle.getD 0) "TakeArm" [0, 0],
                          .robotExecute (s.robot_handle.getD 0) "slvChangeMode" [514],
                          .robotExecute (s.robot_handle.getD 0) "slvMove" (p0 ++ [0, 0])])
                  [⟨1, p0, none⟩] [] with ⟨t4, ex, fl⟩
              have htr4 : t4 = (t1 ++ [.robotExecute (s.robot_handle.getD 0) "TakeArm" [0, 0],
                          .robotExecute (s.robot_handle.getD 0) "slvChangeMode" [514],
                          .robotExecute (s.robot_handle.getD 0) "slvMove" (p0 ++ [0, 0])]) ++
                  rest.map (fun p => .robotExecute (s.robot_handle.getD 0) "slvMove" (p ++ [0, 0])) := by
                have h2 := slaveLoop_trace o (s.robot_handle.getD 0) rest 1
                  (t1 ++ [.robotExecute (s.robot_handle.getD 0) "TakeArm" [0, 0],
                          .robotExecute (s.robot_handle.getD 0) "slvChangeMode" [514],
                          .robotExecute (s.robot_handle.getD 0) "slvMove" (p0 ++ [0, 0])])
                  [⟨1, p0, none⟩] []
                rw [hloop] at h2; exact h2
              have hcnt : ex.length + fl.length = 1 + rest.length := by
                have h2 := slaveLoop_counts o (s.robot_handle.getD 0) rest 1
                  (t1 ++ [.robotExecute (s.robot_handle.getD 0) "TakeArm" [0, 0],
                          .robotExecute (s.robot_handle.getD 0) "slvChangeMode" [514],
                          .robotExecute (s.robot_handle.getD 0) "slvMove" (p0 ++ [0, 0])])
                  [⟨1, p0, none⟩] []
                rw [hloop] at h2; simpa using h2
              rcases h6 : o t4.length with v6 | m6
              · rcases h7 : o (t4.length + 1) with v7 | m7
                · simp only [handle_robot_execute_slave_trajectory, hrb,
                    eq_self_iff_true, not_true, if_false, hbad, hcap, doCall,
                    List.length_append, List.length_cons, List.length_nil,
                    List.append_assoc, List.cons_append, List.nil_append,
                    Nat.zero_add, Nat.add_zero, h3, h4, h5, hloop, h6, h7,
                    Outcome.ok.injEq] at h ⊢
                  subst h
                  refine ⟨?_, by simp, by simp only []; omega, by
                    simp [List.isEmpty_iff, List.length_eq_zero]⟩
                  rw [htr4]
                  simp [slvMoves_append, hsm1, slvMoves, slvMoves_map]
                · simp only [handle_robot_execute_slave_trajectory, hrb,
                    eq_self_iff_true, not_true, if_false, hbad, hcap, doCall,
                    List.length_append, List.length_cons, List.length_nil,
                    List.append_assoc, List.cons_append, List.nil_append,
                    Nat.zero_add, Nat.add_zero, h3, h4, h5, hloop, h6, h7,
                    slaveFail, Outcome.ok.injEq] at h
                  subst h
                  simp at herr
              · simp only [handle_robot_execute_slave_trajectory, hrb,
                  eq_self_iff_true, not_true, if_false, hbad, hcap, doCall,
                  List.length_append, List.length_cons, List.length_nil,
                  List.append_assoc, List.cons_append, List.nil_append,
                  Nat.zero_add, Nat.add_zero, h3, h4, h5, hloop, h6,
                  slaveFail, Outcome.ok.injEq] at h
                subst h
                simp at herr
            · simp [handle_robot_execute_slave_trajectory, hrb, hbad, hcap,
                doCall, h3, h4, h5, slaveFail, Outcome.ok.injEq] at h
              subst h
              simp at herr
        · simp [handle_robot_execute_slave_trajectory, hrb, hbad, hcap,
            doCall, h3, h4, slaveFail, Outcome.ok.injEq] at h
          subst h
          simp at herr
      · simp [handle_robot_execute_slave_trajectory, hrb, hbad, hcap,
          doCall, h3, slaveFail, Outcome.ok.injEq] at h
        subst h
        simp at herr
    · have hf : truthy s.robot_handle = true := hrb
      simp [handle_robot_execute_slave_trajectory, hf, hbad] at h
  · have hf : truthy s.robot_handle = false := by simpa using hrb
    simp [handle_robot_execute_slave_trajectory, hf] at h

/-- Part (iii) of the slave-trajectory claim: every exception-branch
result leaves a trace that ends in the best-effort cleanup of some
prefix — combined with `slaveCleanup_spec`, the exit-slave-mode command
is always attempted there and the arm release is attempted exactly when
the exit succeeded. -/
theorem slave_fail_trace (o : Oracle) (s : ServerState) (traj : List (List ℚ))
    (opt : String) (r : SlaveResult) (m : String)
    (h : (handle_robot_execute_slave_trajectory o s traj opt).out = .ok r)
    (herr : r.error = some m) :
    ∃ t', (handle_robot_execute_slave_trajectory o s traj opt).tr =
      slaveCleanup o (s.robot_handle.getD 0) t' := by
  by_cases hrb : truthy s.robot_handle
  · rcases hbad : firstBadPoint traj 0 with _ | i
    · rcases hcap : captureInitialAngles o (s.robot_handle.getD 0) with ⟨t1, init0⟩
      rcases h3 : o t1.length with v3 | m3
      · rcases h4 : o (t1.length + 1) with v4 | m4
        · rcases traj with _ | ⟨p0, rest⟩
          · rcases h5 : o (t1.length + 2) with v5 | m5
            · rcases h6 : o (t1.length + 3) with v6 | m6
              · simp only [handle_robot_execute_slave_trajectory, hrb,
                  eq_self_iff_true, not_true, if_false, hbad, hcap, doCall,
                  List.length_append, List.length_cons, List.length_nil,
                  List.append_assoc, List.cons_append, List.nil_append,
                  Nat.zero_add, Nat.add_zero, h3, h4, h5, h6,
                  Outcome.ok.injEq] at h
                subst h
                simp at herr
              · refine ⟨t1 ++ [.robotExecute (s.robot_handle.getD 0) "TakeArm" [0, 0],
                  .robotExecute (s.robot_handle.getD 0) "slvChangeMode" [514],
                  .robotExecute (s.robot_handle.getD 0) "slvChangeMode" [0],
                  .robotExecute (s.robot_handle.getD 0) "GiveArm" []], ?_⟩
                simp [handle_robot_execute_slave_trajectory, hrb, hbad, hcap,
                  doCall, h3, h4, h5, h6, slaveFail]
            · refine ⟨t1 ++ [.robotExecute (s.robot_handle.getD 0) "TakeArm" [0, 0],
                .robotExecute (s.robot_handle.getD 0) "slvChangeMode" [514],
                .robotExecute (s.robot_handle.getD 0) "slvChangeMode" [0]], ?_⟩
              simp [handle_robot_execute_slave_trajectory, hrb, hbad, hcap,
                doCall, h3, h4, h5, slaveFail]
          · rcases h5 : o (t1.length + 2) with v5 | m5
            · rcases hloop : slaveLoop o (s.robot_handle.getD 0) rest 1
                  (t1 ++ [.robotExecute (s.robot_handle.getD 0) "TakeArm" [0, 0],
                          .robotExecute (s.robot_handle.getD 0) "slvChangeMode" [514],
                          .robotExecute (s.robot_handle.getD 0) "slvMove" (p0 ++ [0, 0])])
                  [⟨1, p0, none⟩] [] with ⟨t4, ex, fl⟩
              rcases h6 : o t4.length with v6 | m6
              · rcases h7 : o (t4.length + 1) with v7 | m7
                · simp only [handle_robot_execute_slave_trajectory, hrb,
                    eq_self_iff_true, not_true, if_false, hbad, hcap, doCall,
                    List.length_append, List.length_cons, List.length_nil,
                    List.append_assoc, List.cons_append, List.nil_append,
                    Nat.zero_add, Nat.add_zero, h3, h4, h5, hloop, h6, h7,
                    Outcome.ok.injEq] at h
                  subst h
                  simp at herr
                · refine ⟨t4 ++ [.robotExecute (s.robot_handle.getD 0) "slvChangeMode" [0],
                    .robotExecute (s.robot_handle.getD 0) "GiveArm" []], ?_⟩
                  simp only [handle_robot_execute_slave_trajectory, hrb,
                    eq_self_iff_true, not_true, if_false, hbad, hcap, doCall,
                    List.length_append, List.length_cons, List.length_nil,
                    List.append_assoc, List.cons_append, List.nil_append,
                    Nat.zero_add, Nat.add_zero, h3, h4, h5, hloop, h6, h7,
                    slaveFail]
              · refine ⟨t4 ++ [.robotExecute (s.robot_handle.getD 0) "slvChangeMode" [0]], ?_⟩
                simp only [handle_robot_execute_slave_trajectory, hrb,
                  eq_self_iff_true, not_true, if_false, hbad, hcap, doCall,
                  List.length_append, List.length_cons, List.length_nil,
                  List.append_assoc, List.cons_append, List.nil_append,
                  Nat.zero_add, Nat.add_zero, h3, h4, h5, hloop, h6,
                  slaveFail]
            · refine ⟨t1 ++ [.robotExecute (s.robot_handle.getD 0) "TakeArm" [0, 0],
                .robotExecute (s.robot_handle.getD 0) "slvChangeMode" [514],
                .robotExecute (s.robot_handle.getD 0) "slvMove" (p0 ++ [0, 0])], ?_⟩
              simp [handle_robot_execute_slave_trajectory, hrb, hbad, hcap,
                doCall, h3, h4, h5, slaveFail]
        · refine ⟨t1 ++ [.robotExecute (s.robot_handle.getD 0) "TakeArm" [0, 0],
            .robotExecute (s.robot_handle.getD 0) "slvChangeMode" [514]], ?_⟩
          simp [handle_robot_execute_slave_trajectory, hrb, hbad, hcap,
            doCall, h3, h4, slaveFail]
      · refine ⟨t1 ++ [.robotExecute (s.robot_handle.getD 0) "TakeArm" [0, 0]], ?_⟩
        simp [handle_robot_execute_slave_trajectory, hrb, hbad, hcap,
          doCall, h3, slaveFail]
    · have hf : truthy s.robot_handle = true := hrb
      simp [handle_robot_execute_slave_trajectory, hf, hbad] at h
  · have hf : truthy s.robot_handle = false := by simpa using hrb
    simp [handle_robot_execute_slave_trajectory, hf] at h

/-- Oracle for which the first streamed slave point (call 5) and the
cleanup slave-mode exit (call 6) both fail. -/
def oracleSlaveBad : Oracle :=
  fun n => if n = 5 ∨ n = 6 then .err "bad" else .ok (.vals [1, 2, 3, 4, 5, 6])

/-- Oracle for which only the first streamed slave point (call 5) fails. -/
def oracleSlaveFirstFail : Oracle :=
  fun n => if n = 5 then .err "pt1" else .ok (.vals [1, 2, 3, 4, 5, 6])

/-! ## C3 -/

/-- C3 counterexample: on the exception path where the first streamed
point fails AND the best-effort exit-slave-mode call of the cleanup also
fails, the arm-control release (`GiveArm`) is never attempted — the
trace contains no `GiveArm` call at all, and the only exit attempt
(call 6) failed, so slave mode is left engaged and arm control held.
This falsifies the claim that on every exception path the exit command
AND the release are attempted so that slave mode is never left engaged
and arm control never left held. -/
theorem C3_slave_trajectory_counterexample :
    (handle_robot_execute_slave_trajectory oracleSlaveBad sFull
        [[0, 0, 0, 0, 0, 0], [1, 1, 1, 1, 1, 1]] "").out =
      .ok ⟨false, 2, 0, 1, some [1, 2, 3, 4, 5, 6], none, none, some "bad"⟩ ∧
    giveArmCount (handle_robot_execute_slave_trajectory oracleSlaveBad sFull
        [[0, 0, 0, 0, 0, 0], [1, 1, 1, 1, 1, 1]] "").tr = 0 ∧
    slvMoveCount (handle_robot_execute_slave_trajectory oracleSlaveBad sFull
        [[0, 0, 0, 0, 0, 0], [1, 1, 1, 1, 1, 1]] "").tr = 1 ∧
    oracleSlaveBad 6 = .err "bad" := by
  decide

/-- C3 (amended): (i) when the pre-stream calls succeed and the first
streamed point fails, the operation returns success=false with one
failed and zero executed points and no further point is attempted;
(ii) on every non-exception result, all points are streamed in order
(later failures do not abort), counts add up, and success iff no failed
point; (iii) every exception-branch trace ends in the best-effort
cleanup of its prefix, and (iv) that cleanup always attempts the
exit-slave-mode command but attempts the arm release only when the exit
call succeeded — if the exit itself fails, the release is not attempted
and slave mode may remain engaged. -/
theorem C3_slave_trajectory :
    (∀ (o : Oracle) (s : ServerState) (p0 : List ℚ) (rest : List (List ℚ))
       (opt m : String),
      truthy s.robot_handle →
      (∀ p ∈ p0 :: rest, p.length = 6) →
      (o 0).isOk = true → (o 1).isOk = true →
      (o 3).isOk = true → (o 4).isOk = true →
      o 5 = .err m →
      ∃ r, (handle_robot_execute_slave_trajectory o s (p0 :: rest) opt).out = .ok r ∧
        r.success = false ∧ r.error = some m ∧
        r.executed_points = 0 ∧ r.failed_points = 1 ∧
        slvMoveCount (handle_robot_execute_slave_trajectory o s (p0 :: rest) opt).tr = 1) ∧
    (∀ (o : Oracle) (s : ServerState) (traj : List (List ℚ)) (opt : String)
       (r : SlaveResult),
      (handle_robot_execute_slave_trajectory o s traj opt).out = .ok r →
      r.error = none →
      slvMoves (handle_robot_execute_slave_trajectory o s traj opt).tr =
        traj.map (fun p => p ++ [0, 0]) ∧
      r.total_points = traj.length ∧
      r.executed_points + r.failed_points = traj.length ∧
      (r.success = true ↔ r.failed_points = 0)) ∧
    (∀ (o : Oracle) (s : ServerState) (traj : List (List ℚ)) (opt : String)
       (r : SlaveResult) (m : String),
      (handle_robot_execute_slave_trajectory o s traj opt).out = .ok r →
      r.error = some m →
      ∃ t', (handle_robot_execute_slave_trajectory o s traj opt).tr =
        slaveCleanup o (s.robot_handle.getD 0) t') ∧
    (∀ (o : Oracle) (rh : ℕ) (tr : List PCall),
      (slaveCleanup o rh tr = tr ++ [.robotExecute rh "slvChangeMode" [0]] ∧
        (o tr.length).isOk = false) ∨
      (slaveCleanup o rh tr =
        tr ++ [.robotExecute rh "slvChangeMode" [0], .robotExecute rh "GiveArm" []] ∧
        (o tr.length).isOk = true)) :=
  ⟨slave_first_point_fatal, slave_normal_spec, slave_fail_trace, slaveCleanup_spec⟩

/-- C3 witness: first-point failure on a concrete two-point trajectory
returns the failure result having streamed exactly one point. -/
theorem C3_slave_trajectory_witness :
    ∃ r, (handle_robot_execute_slave_trajectory oracleSlaveFirstFail sFull
        [[0, 0, 0, 0, 0, 0], [1, 1, 1, 1, 1, 1]] "").out = .ok r ∧
      r.success = false ∧ r.error = some "pt1" ∧
      r.executed_points = 0 ∧ r.failed_points = 1 ∧
      slvMoveCount (handle_robot_execute_slave_trajectory oracleSlaveFirstFail sFull
        [[0, 0, 0, 0, 0, 0], [1, 1, 1, 1, 1, 1]] "").tr = 1 :=
  C3_slave_trajectory.1 oracleSlaveFirstFail sFull [0, 0, 0, 0, 0, 0]
    [[1, 1, 1, 1, 1, 1]] "" "pt1" (by decide) (by decide) (by decide) (by decide)
    (by decide) (by decide) (by decide)

/-! ## C4 -/

/-- Oracle for which only the step-2 `TakeArm` call of the pick-and-place
saga (the 5th client call, index 4) fails. -/
def oraclePnPStep2Take : Oracle :=
  fun n => if n = 4 then .err "takefail" else .ok (.vals [100, 200, 300, 10, 20, 30])

/-- C4: evaluation of the saga at the failing input.  When step 2's
`TakeArm` call fails, the Python local `pick_z` is never bound; the
un-guarded `current_z = pick_z` line between step 3 and the lift loop
raises a `NameError` that the outer handler catches, so the saga aborts:
only steps 0-3 appear in the step list, steps 4-10 — including the
step-10 return to the initial pose — are never attempted, and no
`robot_move` is ever issued.  This contradicts the claim (and the
documented design) that every numbered step 1-10 is attempted regardless
of earlier step failures. -/
theorem C4_pick_and_place_step2_abort :
    (handle_robot_pick_and_place oraclePnPStep2Take sFull 4 9 (5/2) 3 100).out =
      .ok ⟨false, none, none,
        [⟨0, "get_initial_position", "success", none⟩,
         ⟨1, "open_gripper", "success", none⟩,
         ⟨2, "move_down_to_pick", "failed", some "Step 2 failed: takefail"⟩,
         ⟨3, "close_gripper", "success", none⟩],
        ["Step 2 failed: takefail"],
        some "NameError: name pick_z is not defined"⟩ ∧
    moveCalls (handle_robot_pick_and_place oraclePnPStep2Take sFull 4 9 (5/2) 3 100).tr
      = [] := by
  decide

/-! ## C5 -/

/-- Oracle for which the first call (the fresh `BCAPClient` constructor
of the joint move) succeeds and every later call fails, so the joint
move's own try/except turns the failure into a returned envelope. -/
def oracleJointFail : Oracle :=
  fun n => if n = 0 then .ok .unit else .err "down"

/-- C5: the single joint move (successful and failed runs), the status
query, and the log read each append ZERO operation-log entries per
dispatched invocation — not one as claimed.  `handle_robot_move_to_joint_angles`
never calls `log_operation` and swallows its own exceptions, and the
status/log handlers have no logging call either, so the dispatcher's
error-logging arm is never reached. -/
theorem C5_three_operations_never_log :
    (dispatchLog (handle_robot_move_to_joint_angles oracleOk sFull [0, 0, 0, 0, 0, 0] "")
        "bcap_robot_move_to_joint_angles").operation_log = sFull.operation_log ∧
    (dispatchLog (handle_robot_move_to_joint_angles oracleJointFail sFull [0, 0, 0, 0, 0, 0] "")
        "bcap_robot_move_to_joint_angles").operation_log = sFull.operation_log ∧
    (handle_robot_move_to_joint_angles oracleJointFail sFull [0, 0, 0, 0, 0, 0] "").out =
      .ok ⟨false, some "down"⟩ ∧
    (dispatchLog (handle_get_connection_status sFull)
        "bcap_get_connection_status").operation_log = sFull.operation_log ∧
    (dispatchLog (handle_get_operation_log sFull none)
        "bcap_get_operation_log").operation_log = sFull.operation_log ∧
    sFull.operation_log.length = 1 := by
  decide

/-! ## C8 -/

/-- C8 counterexample: a failing robot-release call makes `reset` raise
with the client, handles and metadata left entirely un-cleared —
falsifying the claim that reset always clears local state even when a
release call fails. -/
theorem C8_reset_counterexample :
    resetRun oracleErr sFull = (sFull, [.robotRelease 3], some "boom") ∧
    sFull.client = some 1 ∧ sFull.robot_handle = some 3 := by
  decide

/-- Reset on a never-connected session is a complete no-op that never
raises and performs no call. -/
theorem reset_never_connected (o : Oracle) (s : ServerState) (hc : s.client = none)
    (hk : s.controller_handle = none) (hr : s.robot_handle = none)
    (hi : s.connection_info = none) : resetRun o s = (s, [], none) := by
  have hcl : clearedState s = s := by
    cases s; simp_all [clearedState]
  simp [resetRun, hc, hcl]

/-- A second reset right after a completed reset performs no call,
changes nothing and never raises. -/
theorem reset_idempotent (o o2 : Oracle) (s : ServerState)
    (h : (resetRun o s).2.2 = none) :
    resetRun o2 (resetRun o s).1 = ((resetRun o s).1, [], none) := by
  rw [reset_ok_cleared o s h]
  rw [reset_no_client o2 (clearedState s) rfl]
  simp [clearedState]

/-- C8 (amended): reset releases the robot handle (when truthy) and then
the controller handle (when truthy), in that order; when no release call
raises, the client, both handles and the metadata are cleared, but when
a release call raises, the exception propagates and NO local state is
cleared; on a never-connected session it performs no protocol call,
changes nothing and never raises, and a second reset right after a
completed one is likewise a silent no-op. -/
theorem C8_reset :
    (∀ (o : Oracle) (s : ServerState), s.client = none → s.controller_handle = none →
      s.robot_handle = none → s.connection_info = none →
      resetRun o s = (s, [], none)) ∧
    (∀ (o : Oracle) (s : ServerState), (resetRun o s).2.2 = none →
      (resetRun o s).1 = clearedState s) ∧
    (∀ (o : Oracle) (s : ServerState) (m : String), (resetRun o s).2.2 = some m →
      (resetRun o s).1 = s) ∧
    (∀ (o o2 : Oracle) (s : ServerState), (resetRun o s).2.2 = none →
      resetRun o2 (resetRun o s).1 = ((resetRun o s).1, [], none)) ∧
    (∀ (o : Oracle) (s : ServerState),
      (resetRun o s).2.1 = [] ∨
      (∃ h, (resetRun o s).2.1 = [.robotRelease h]) ∨
      (∃ h, (resetRun o s).2.1 = [.controllerDisconnect h]) ∨
      (∃ h h2, (resetRun o s).2.1 = [.robotRelease h, .controllerDisconnect h2])) :=
  ⟨reset_never_connected, reset_ok_cleared, reset_err_unchanged,
   reset_idempotent, reset_trace_cases⟩

/-- C8 witness: a double reset on the concrete connected state — the
first clears everything, the second is a silent no-op. -/
theorem C8_reset_witness :
    resetRun oracleOk (resetRun oracleOk sFull).1 = ((resetRun oracleOk sFull).1, [], none) :=
  C8_reset.2.2.2.1 oracleOk oracleOk sFull (by decide)

/-! ## C10 -/

/-- C10: disconnect on a session whose client is `None` returns the
failure envelope with error "Not connected", issues no protocol call,
raises nothing, leaves every state field (including the operation log)
unchanged. -/
theorem C10_disconnect_not_connected (o : Oracle) (s : ServerState)
    (h : s.client = none) :
    handle_disconnect o s = ⟨s, [], .ok ⟨false, some "Not connected"⟩⟩ := by
  simp [handle_disconnect, h]

/-- C10 witness: disconnect of the fresh never-connected state. -/
theorem C10_disconnect_not_connected_witness :
    handle_disconnect oracleOk sFresh = ⟨sFresh, [], .ok ⟨false, some "Not connected"⟩⟩ :=
  C10_disconnect_not_connected oracleOk sFresh (by decide)

/-! ## C7 -/

/-- A session state whose log holds three entries. -/
def sLog3 : ServerState :=
  ⟨none, none, none, none, [⟨"a", none⟩, ⟨"b", none⟩, ⟨"c", none⟩]⟩

/-- C7 counterexample: with a three-entry log, `limit = 0` returns ALL
three entries, not an empty sequence — `operation_log[-0:]` is the whole
list because `-0 == 0` in Python. -/
theorem C7_operation_log_counterexample :
    (handle_get_operation_log sLog3 (some 0)).out =
      .ok ⟨true, 3, 3, [⟨"a", none⟩, ⟨"b", none⟩, ⟨"c", none⟩]⟩ ∧
    [(⟨"a", none⟩ : LogEntry), ⟨"b", none⟩, ⟨"c", none⟩] ≠ [] := by
  decide

theorem getlog_positive (s : ServerState) (lim : ℤ) (h : 0 < lim) :
    handle_get_operation_log s (some lim) =
      ⟨s, [], .ok ⟨true, s.operation_log.length,
        (s.operation_log.drop (s.operation_log.length - lim.toNat)).length,
        s.operation_log.drop (s.operation_log.length - lim.toNat)⟩⟩ := by
  have hneg : (-lim : ℤ) < 0 := by omega
  have harg : ((s.operation_log.length : ℤ) + (-lim)).toNat =
      s.operation_log.length - lim.toNat := by omega
  simp [handle_get_operation_log, pySliceFrom, hneg, harg]

theorem getlog_positive_min (s : ServerState) (lim : ℤ) (h : 0 < lim) :
    (s.operation_log.drop (s.operation_log.length - lim.toNat)).length =
      min lim.toNat s.operation_log.length := by
  simp only [List.length_drop]
  omega

theorem getlog_default (s : ServerState) :
    handle_get_operation_log s none = handle_get_operation_log s (some 50) := rfl

theorem getlog_zero (s : ServerState) :
    handle_get_operation_log s (some 0) =
      ⟨s, [], .ok ⟨true, s.operation_log.length, s.operation_log.length,
        s.operation_log⟩⟩ := by
  simp [handle_get_operation_log, pySliceFrom]

theorem getlog_negative (s : ServerState) (lim : ℤ) (h : lim < 0) :
    handle_get_operation_log s (some lim) =
      ⟨s, [], .ok ⟨true, s.operation_log.length,
        (s.operation_log.drop (-lim).toNat).length,
        s.operation_log.drop (-lim).toNat⟩⟩ := by
  have hng : ¬ ((-lim : ℤ) < 0) := by omega
  simp [handle_get_operation_log, pySliceFrom, hng]

theorem getlog_pure (s : ServerState) (lim : Option ℤ) :
    (handle_get_operation_log s lim).st = s ∧
    (handle_get_operation_log s lim).tr = [] := ⟨rfl, rfl⟩

/-- C7 (amended): for a positive limit the log read returns the last
min(limit, length) entries in insertion order (the length-(length-limit)
suffix); the limit defaults on 50; a ZERO limit returns the entire log
(not an empty sequence); a negative limit `-k` returns the entries after
the first k; and the read never mutates the state and issues no protocol
call. -/
theorem C7_operation_log :
    (∀ (s : ServerState) (lim : ℤ), 0 < lim →
      handle_get_operation_log s (some lim) =
        ⟨s, [], .ok ⟨true, s.operation_log.length,
          (s.operation_log.drop (s.operation_log.length - lim.toNat)).length,
          s.operation_log.drop (s.operation_log.length - lim.toNat)⟩⟩) ∧
    (∀ (s : ServerState) (lim : ℤ), 0 < lim →
      (s.operation_log.drop (s.operation_log.length - lim.toNat)).length =
        min lim.toNat s.operation_log.length) ∧
    (∀ s : ServerState,
      handle_get_operation_log s none = handle_get_operation_log s (some 50)) ∧
    (∀ s : ServerState, handle_get_operation_log s (some 0) =
      ⟨s, [], .ok ⟨true, s.operation_log.length, s.operation_log.length,
        s.operation_log⟩⟩) ∧
    (∀ (s : ServerState) (lim : ℤ), lim < 0 →
      handle_get_operation_log s (some lim) =
        ⟨s, [], .ok ⟨true, s.operation_log.length,
          (s.operation_log.drop (-lim).toNat).length,
          s.operation_log.drop (-lim).toNat⟩⟩) ∧
    (∀ (s : ServerState) (lim : Option ℤ),
      (handle_get_operation_log s lim).st = s ∧
      (handle_get_operation_log s lim).tr = []) :=
  ⟨getlog_positive, getlog_positive_min, getlog_default, getlog_zero,
   getlog_negative, getlog_pure⟩

/-- C7 witness: reading the three-entry log with limit 2 yields the last
two entries in order. -/
theorem C7_operation_log_witness :
    handle_get_operation_log sLog3 (some 2) =
      ⟨sLog3, [], .ok ⟨true, 3, 2, [⟨"b", none⟩, ⟨"c", none⟩]⟩⟩ :=
  C7_operation_log.1 sLog3 2 (by decide)

/-! ## C6 -/

/-- C6 counterexample: on a completely disconnected session, the single
joint move performs no precondition check: it creates a fresh client
with the default host/port, contacts the protocol client through the
whole ten-call sequence, and returns success — instead of failing with a
precondition error before contacting the client. -/
theorem C6_preconditions_counterexample :
    sFresh.robot_handle = none ∧ sFresh.controller_handle = none ∧
    sFresh.client = none ∧
    (handle_robot_move_to_joint_angles oracleOk sFresh [0, 0, 0, 0, 0, 0] "").tr =
      [.newClient "192.168.0.1" 5007,
       .controllerConnect "" "CaoProv.DENSO.VRC" "localhost" "",
       .controllerGetRobot 0 "Arm" "",
       .robotGetVariable 0 "@CURRENT_ANGLE" "",
       .variableGetValue 0, .variableRelease 0,
       .robotExecute 0 "TakeArm" [0, 0],
       .robotMove 0 [0, 0, 0, 0, 0, 0] "J" "",
       .robotRelease 0, .controllerDisconnect 0] ∧
    (handle_robot_move_to_joint_angles oracleOk sFresh [0, 0, 0, 0, 0, 0] "").out =
      .ok ⟨true, none⟩ := by
  decide

theorem pose_move_precondition (o : Oracle) (s : ServerState)
    (pose : List ℚ) (opt : String) (h : ¬ truthy s.robot_handle) :
    handle_robot_move_to_pose o s pose opt =
      ⟨s, [], .raised "Please call bcap_robot_connect first"⟩ := by
  unfold handle_robot_move_to_pose
  rw [if_pos h]

/-- The single joint move's first protocol-client call is always the
fresh-client construction from stored-or-default connection metadata,
whatever the session state — it never checks a precondition first. -/
theorem joint_move_contacts_client (o : Oracle) (s : ServerState)
    (angles : List ℚ) (opt : String) :
    (handle_robot_move_to_joint_angles o s angles opt).tr.head? =
      some (.newClient ((s.connection_info.map (·.host)).getD "192.168.0.1")
                       ((s.connection_info.map (·.port)).getD 5007)) := by
  unfold handle_robot_move_to_joint_angles
  simp only [doCall]
  repeat' split
  all_goals simp only [Prod.mk.injEq] at *
  all_goals try casesm* _ ∧ _
  all_goals subst_vars
  all_goals rcases parseSpeedValue opt with _ | sv <;> simp

/-- C6 (amended): the single pose move checks the robot-connect
precondition before any protocol call and raises the precondition error
identifying the missing stage when the robot handle is falsy; but the
single joint move performs NO session-state check — its first action is
always to contact the protocol client with stored-or-default connection
metadata, even when no connection stage has been established. -/
theorem C6_preconditions :
    (∀ (o : Oracle) (s : ServerState) (pose : List ℚ) (opt : String),
      ¬ truthy s.robot_handle →
      handle_robot_move_to_pose o s pose opt =
        ⟨s, [], .raised "Please call bcap_robot_connect first"⟩) ∧
    (∀ (o : Oracle) (s : ServerState) (angles : List ℚ) (opt : String),
      (handle_robot_move_to_joint_angles o s angles opt).tr.head? =
        some (.newClient ((s.connection_info.map (·.host)).getD "192.168.0.1")
                         ((s.connection_info.map (·.port)).getD 5007))) :=
  ⟨pose_move_precondition, joint_move_contacts_client⟩

/-- C6 witness: the pose move on the fresh session raises the
precondition error with no call issued. -/
theorem C6_preconditions_witness :
    handle_robot_move_to_pose oracleOk sFresh [1, 2, 3, 4, 5, 6] "" =
      ⟨sFresh, [], .raised "Please call bcap_robot_connect first"⟩ :=
  C6_preconditions.1 oracleOk sFresh [1, 2, 3, 4, 5, 6] "" (by decide)

/-! ## C9 -/

/-- Oracle whose every call succeeds; variable reads return the given
pose. -/
def oraclePose (pose : List ℚ) : Oracle := fun _ => .ok (.vals pose)

/-- `pnpGripperStep` under an all-success oracle: one `HandMoveA` call,
one success step, no new error. -/
theorem pnpGripperStep_pose (pose : List ℚ) (ch : ℕ) (tr : List PCall) (n : ℕ)
    (action : String) (d gspeed : ℚ) (steps : List Step) (errors : List String) :
    pnpGripperStep (oraclePose pose) ch tr n action d gspeed steps errors =
      (tr ++ [.controllerExecute ch "HandMoveA" [d, gspeed]],
       steps ++ [⟨n, action, "success", none⟩], errors) := rfl

/-- `pnpMoveStep` under an all-success oracle: `TakeArm` then the move,
one success step, no new error, arm taken. -/
theorem pnpMoveStep_pose (pose : List ℚ) (rh : ℕ) (tr : List PCall) (n : ℕ)
    (action : String) (target : List ℚ) (steps : List Step) (errors : List String) :
    pnpMoveStep (oraclePose pose) rh tr n action target steps errors =
      (tr ++ [.robotExecute rh "TakeArm" [0, 0]] ++ [.robotMove rh target "P" ""],
       steps ++ [⟨n, action, "success", none⟩], errors, true) := rfl

/-- `pnpLiftStep` under an all-success oracle: `TakeArm`, the Z increment,
the move. -/
theorem pnpLiftStep_pose (pose : List ℚ) (rh : ℕ) (x y rx ry rz step_up : ℚ)
    (i : ℕ) (cz : ℚ) (tr : List PCall) (steps : List Step) (errors : List String) :
    pnpLiftStep (oraclePose pose) rh x y rx ry rz step_up i (cz, tr, steps, errors) =
      (cz + step_up,
       tr ++ [.robotExecute rh "TakeArm" [0, 0]] ++
         [.robotMove rh [x, y, cz + step_up, rx, ry, rz] "P" ""],
       steps ++ [⟨4 + i, "lift_up_" ++ toString (i + 1), "success", none⟩], errors) := rfl

theorem oraclePose_apply (pose : List ℚ) (n : ℕ) :
    oraclePose pose n = .ok (.vals pose) := rfl

/-- C9: with every client call succeeding, the saga's commanded
`robot_move` targets are exactly: step 2 at the captured pose with Z
lowered by 10 times `pick_down_distance` (centimeters to millimeters),
steps 4-6 each raising Z by a third of 10 times `lift_up_distance` so
that the three sub-steps together restore exactly 10 times
`lift_up_distance`, step 7 shifting Y by 10 times `place_y_offset`, step
8 lowering Z by 10 times `place_down_distance`, and step 10 returning to
the captured initial pose. -/
theorem C9_pick_and_place_distances (x y z rx ry rz pd lu py pld gs : ℚ) :
    moveCalls (handle_robot_pick_and_place (oraclePose [x, y, z, rx, ry, rz])
        sFull pd lu py pld gs).tr =
      [[x, y, z - 10 * pd, rx, ry, rz],
       [x, y, z - 10 * pd + 10 * lu / 3, rx, ry, rz],
       [x, y, z - 10 * pd + 10 * lu / 3 + 10 * lu / 3, rx, ry, rz],
       [x, y, z - 10 * pd + 10 * lu, rx, ry, rz],
       [x, y + 10 * py, z - 10 * pd + 10 * lu, rx, ry, rz],
       [x, y + 10 * py, z - 10 * pd + 10 * lu - 10 * pld, rx, ry, rz],
       [x, y, z, rx, ry, rz]] := by
  simp only [handle_robot_pick_and_place, pnpGripperStep_pose, pnpMoveStep_pose,
    pnpLiftStep_pose, doCall, oraclePose_apply, sFull, truthy, asVals, asHandle,
    show ((2 : ℕ) != 0) = true from rfl, show ((3 : ℕ) != 0) = true from rfl,
    eq_self_iff_true, not_true, if_false, if_true,
    List.length_cons, List.length_nil,
    show ((6 : ℕ) < 6) = False from by simp,
    List.getD_cons_zero, List.getD_cons_succ, Option.getD_some]
  simp only [List.append_assoc, List.cons_append, List.nil_append]
  simp only [moveCalls]
  simp only [List.cons.injEq]
  constructorm* _ ∧ _ <;> first | rfl | ring_nf

end Cobotta
